import Mathlib

/-!
# goduck `pier` command: appchain parameter resolution and the lifecycle commands

A shallow embedding of `cmd/goduck/pier.go`.

* Go strings are embedded as Lean `String`s (sequences of Unicode scalar values).
  For valid UTF-8 text, splitting on an ASCII separator and substring search agree
  with the byte-level Go functions.
* A Go function returning `(..., error)` is embedded as a function into `Result`,
  which also records a run-time panic (index out of range, nil dereference), so
  that absence of panics is a statement about the embedding and not an assumption.
-/

namespace Goduck

/-! ## Outcomes of a Go call -/

/-- Outcome of a Go function with an `error` result: normal return with a value and a
nil error, return with a non-nil error carrying its message, or a run-time panic. -/
inductive Result (α : Type) where
  | ok (v : α)
  | error (msg : String)
  | panicked (msg : String)
  deriving DecidableEq, Repr

namespace Result

/-- Sequencing: an error or a panic of the first step ends the function. -/
def bind {α β : Type} (r : Result α) (f : α → Result β) : Result β :=
  match r with
  | ok v => f v
  | error msg => error msg
  | panicked msg => panicked msg

end Result

/-! ## Go standard library functions used by `pier.go` -/

/-- Loop of `strings.Split` for a non-empty separator. `skip` counts the characters of a
separator occurrence that are still to be stepped over, `acc` holds the current piece
reversed. -/
def splitChars (sep : List Char) : Nat → List Char → List Char → List (List Char)
  | _, [], acc => [acc.reverse]
  | skip + 1, _ :: cs, acc => splitChars sep skip cs acc
  | 0, c :: cs, acc =>
    if sep.isPrefixOf (c :: cs) then
      acc.reverse :: splitChars sep (sep.length - 1) cs []
    else
      splitChars sep 0 cs (c :: acc)

/-- Go `strings.Split(s, sep)`: the pieces of `s` between the non-overlapping
occurrences of `sep`, found left to right; an empty `sep` explodes `s` into its
characters. -/
def Split (s sep : String) : List String :=
  if sep.data = [] then s.data.map (fun c => String.mk [c])
  else (splitChars sep.data 0 s.data []).map String.mk

/-- Substring test on character lists. -/
def containsChars (sub : List Char) : List Char → Bool
  | [] => sub.isEmpty
  | c :: cs => sub.isPrefixOf (c :: cs) || containsChars sub cs

/-- Go `strings.Contains(s, substr)`. -/
def Contains (s substr : String) : Bool :=
  containsChars substr.data s.data

/-- Loop of `filepath.Clean` over the elements of a path, left to right. `out` holds the
elements kept so far, last one first: an empty or `.` element is skipped; a `..` element
removes the last kept element when there is one to back over, is dropped at the top of a
rooted path, and is kept otherwise. -/
def cleanElems (rooted : Bool) : List String → List String → List String
  | out, [] => out.reverse
  | out, e :: rest =>
    if e = "" ∨ e = "." then cleanElems rooted out rest
    else if e = ".." then
      match out with
      | last :: before =>
        if last = ".." then cleanElems rooted (e :: out) rest
        else cleanElems rooted before rest
      | [] => if rooted then cleanElems rooted [] rest else cleanElems rooted [e] rest
    else cleanElems rooted (e :: out) rest

/-- Go `filepath.Clean(path)` with `/` as the separator: the shortest equivalent path,
`.` for an empty result. -/
def Clean (path : String) : String :=
  let rooted := "/".data.isPrefixOf path.data
  let elems := cleanElems rooted [] (Split path "/")
  if rooted then "/" ++ "/".intercalate elems
  else if elems = [] then "."
  else "/".intercalate elems

/-- Go `filepath.Join(elem...)` with `/` as the separator: leading empty elements are
ignored, the others are joined with `/` and the result is cleaned; the empty string when
every element is empty. -/
def Join : List String → String
  | [] => ""
  | e :: rest => if e = "" then Join rest else Clean ("/".intercalate (e :: rest))

/-- Go slice indexing `xs[i]`, which panics when `i` is out of range. -/
def index (xs : List String) (i : Nat) : Result String :=
  match xs[i]? with
  | some x => Result.ok x
  | none => Result.panicked "runtime error: index out of range"

/-- A Go `map[string]int`, as an association list with at most one entry per key. -/
abbrev PortMap := List (String × Nat)

/-- Go map read `_, ok := m[k]` (the value together with presence). -/
def mapGet (m : PortMap) (k : String) : Option Nat :=
  m.lookup k

/-- Go map write `m[k] = v`. -/
def mapSet (m : PortMap) (k : String) (v : Nat) : PortMap :=
  (k, v) :: m.filter (fun e => e.1 != k)

/-! ## Constants of package `types` -/

/-- Modelled from the spec: `types.ChainTypeFabric` is declared outside the given sources.
The spec (section 3) has the two chain types ether and fabric; the value is the spelling
of the Fabric one in the `appchain` flag usage text of `pier.go` ("one of ethereum or
fabric"). -/
def ChainTypeFabric : String := "fabric"

/-- Modelled from the spec: `types.ChainTypeEther` is declared outside the given sources.
The spec (section 3) has the two chain types ether and fabric; the value is the spelling
of the Ether one in the `appchain` flag usage text of `pier.go` ("one of ethereum or
fabric"). -/
def ChainTypeEther : String := "ethereum"

/-! ## `checkPorts` (pier.go, lines 623-633) -/

/-- The `for i, p := range ports` loop of `checkPorts`, with the map `portM` and the
index `i` as loop state. The result is the returned `error`: `none` for nil, `some p`
for `fmt.Errorf("%s", p)`. -/
def checkPortsLoop : PortMap → Nat → List String → Option String
  | _, _, [] => none
  | portM, i, p :: rest =>
    match mapGet portM p with
    | some _ => some p
    | none => checkPortsLoop (mapSet portM p i) (i + 1) rest

/-- Embedding of `checkPorts`. -/
def checkPorts (ports : List String) : Option String :=
  checkPortsLoop [] 0 ports

/-! ## `getAppchainParams` (pier.go, lines 530-621) -/

/-- Error text of the Fabric port-count check (line 539). -/
def errFabricPortCount : String :=
  "The specified number of application chain ports is incorrect. Fabric needs to specify 9 ports."

/-- Leading text of the duplicate-port error (line 542); the repeated port follows. -/
def errPortRepeated : String := "The port cannot be repeated: "

/-- Error text of the Fabric address/ports consistency check (line 554). -/
def errFabricAddrPorts : String :=
  "AppchainAddr and appchainPorts are inconsistent. Please check the input parameters.\n 1. The port in appchainAddr should be the eventUrlSubstitutionExp port of a fabric node; \n 2. The order in which ports are specified is：the first one is port of orderer, the remaining, in turn, are the first node\x27s urlSubstitutionExp port and eventUrlSubstitutionExp port, and the second node\x27s urlSubstitutionExp port and eventUrlSubstitutionExp port..."

/-- Error text for a Fabric address given without ports (line 557). -/
def errFabricOtherPorts : String := "Please specify other ports for the Fabric chain."

/-- Error text of the address/ip consistency check (lines 562 and 607). -/
def errAddrIP : String :=
  "AppchainAddr and appchainIP are inconsistent. Please check the input parameters."

/-- Error text for a missing crypto-config path (line 570). -/
def errCryptoPath : String := "Start fabric pier need crypto-config path."

/-- Error text of the Ethereum port-count check (lines 583 and 593). -/
def errEtherPortCount : String :=
  "The specified number of application chain ports is incorrect. Ethereum needs to specify 1 port."

/-- Error text of the Ethereum address/ports consistency check (line 596). -/
def errEtherAddrPorts (appchainAddr appchainPorts : String) : String :=
  "AppchainAddr(" ++ appchainAddr ++ ") and appchainPorts(" ++ appchainPorts ++
    ") are inconsistent. Please check the input parameters."

/-- Error text of the `default` case (line 617). -/
def errChainType : String := "unsupported appchain type"

/-- The outcome is the duplicate-port error of line 542: an error whose text starts with
`errPortRepeated`. -/
def isDuplicatePortError {α : Type} (r : Result α) : Bool :=
  match r with
  | Result.error msg => errPortRepeated.data.isPrefixOf msg.data
  | _ => false

/-- The nine ports appended at line 535. -/
def fabricDefaultPorts : List String :=
  ["7050", "7051", "7053", "8051", "8053", "9051", "9053", "10051", "10053"]

/-- The operand `!strings.Contains(appchainAddr, appPorts[i])` of line 553. -/
def addrLacksPort (appchainAddr : String) (appPorts : List String) (i : Nat) : Result Bool :=
  (index appPorts i).bind fun p => Result.ok (!Contains appchainAddr p)

/-- Go `a && b` where evaluating an operand may panic: `b` is evaluated only when `a`
is true. -/
def andAlso (a : Result Bool) (b : Unit → Result Bool) : Result Bool :=
  a.bind fun x => if x then b () else Result.ok false

/-- Embedding of `getAppchainParams`. A normal return carries the triple
`(appPorts, appchainAddr, appchainIP)` in the order of the Go return statement. -/
def getAppchainParams (chainType appchainIP appchainPorts appchainAddr cryptoPath : String) :
    Result (List String × String × String) :=
  if chainType = ChainTypeFabric then
    -- lines 534-544
    (if appchainPorts = "" then
      Result.ok fabricDefaultPorts
    else
      let appPorts := Split appchainPorts ","
      if appPorts.length ≠ 9 then
        Result.error errFabricPortCount
      else
        match checkPorts appPorts with
        | some err => Result.error (errPortRepeated ++ err)
        | none => Result.ok appPorts).bind fun appPorts =>
    -- lines 546-567
    (if appchainAddr = "" then
      let appchainIP := if appchainIP = "" then "127.0.0.1" else appchainIP
      (index appPorts 2).bind fun p2 =>
      Result.ok (appchainIP ++ ":" ++ p2, appchainIP)
    else
      (if appchainPorts ≠ "" then
        (andAlso (addrLacksPort appchainAddr appPorts 2) fun _ =>
          andAlso (addrLacksPort appchainAddr appPorts 4) fun _ =>
          andAlso (addrLacksPort appchainAddr appPorts 6) fun _ =>
          addrLacksPort appchainAddr appPorts 8).bind fun inconsistent =>
        if inconsistent then Result.error errFabricAddrPorts else Result.ok ()
      else
        Result.error errFabricOtherPorts).bind fun _ =>
      if appchainIP ≠ "" then
        if !Contains appchainAddr appchainIP then
          Result.error errAddrIP
        else
          Result.ok (appchainAddr, appchainIP)
      else
        (index (Split appchainAddr ":") 0).bind fun ip =>
        Result.ok (appchainAddr, ip)).bind fun (appchainAddr, appchainIP) =>
    -- lines 569-571
    if cryptoPath = "" then
      Result.error errCryptoPath
    else
      Result.ok (appPorts, appchainAddr, appchainIP)
  else if chainType = ChainTypeEther then
    if appchainAddr = "" then
      -- lines 574-587
      let appchainIP := if appchainIP = "" then "127.0.0.1" else appchainIP
      (if appchainPorts = "" then
        Result.ok ["8546"]
      else
        let appPorts := Split appchainPorts ","
        if appPorts.length ≠ 1 then
          Result.error errEtherPortCount
        else
          Result.ok appPorts).bind fun appPorts =>
      (index appPorts 0).bind fun p0 =>
      Result.ok (appPorts, "ws://" ++ appchainIP ++ ":" ++ p0, appchainIP)
    else
      -- lines 589-613
      (if appchainPorts ≠ "" then
        if appchainPorts ≠ "0000" then
          let appPorts := Split appchainPorts ","
          if appPorts.length ≠ 1 then
            Result.error errEtherPortCount
          else
            (index appPorts 0).bind fun p0 =>
            if !Contains appchainAddr p0 then
              Result.error (errEtherAddrPorts appchainAddr appchainPorts)
            else
              Result.ok appPorts
        else
          Result.ok ["0000"]
      else
        Result.ok ["0000"]).bind fun appPorts =>
      if appchainIP ≠ "" then
        if appchainIP ≠ "0.0.0.0" then
          if !Contains appchainAddr appchainIP then
            Result.error errAddrIP
          else
            Result.ok (appPorts, appchainAddr, appchainIP)
        else
          Result.ok (appPorts, appchainAddr, appchainIP)
      else
        Result.ok (appPorts, appchainAddr, "0.0.0.0")
  else
    Result.error errChainType

/-! ## The environment of a lifecycle command -/

/-- Modelled from the spec: `types.TypeBinary` is declared outside the given sources. The
spec (section 3) has the two deployment modes binary and container; the value is the
spelling of the binary one in the `upType` flag usage text of `pier.go` ("one of binary
or docker"). -/
def TypeBinary : String := "binary"

/-- Modelled from the spec: `types.TypeDocker` is declared outside the given sources. The
spec (section 3) has the two deployment modes binary and container; the value is the
spelling of the container one in the `upType` flag usage text of `pier.go` ("one of
binary or docker"). -/
def TypeDocker : String := "docker"

/-- The part of the `Release` manifest struct that `pier.go` reads: `release.Pier`, the
supported pier versions. -/
structure Release where
  Pier : List String
  deriving DecidableEq, Repr

/-- Modelled from the spec: `AdjustVersion` is defined outside the given sources. By the
spec (section 4.1) the requested version must be an exact member of the supported
versions, with no range matching. -/
def AdjustVersion (version : String) (release : List String) : Bool :=
  release.contains version

/-- Values of the flags a `pier` subcommand reads through `ctx.String`. -/
structure Flags where
  appchain : String
  upType : String
  method : String
  pierRepo : String
  version : String
  cid : String
  repo : String
  deriving DecidableEq, Repr

/-- A call made to a collaborator outside `pier.go`, with its arguments. -/
inductive Effect where
  | pathRoot (path : String)
  | readFile (path : String)
  | exist (path : String)
  | mkdirAll (path : String)
  | download (dst url : String)
  | shell (script : String)
  | blue (text : String)
  | registerPier (repoRoot pierRepo chainType upType method version cid : String)
  | deployRule (repoRoot chainType pierRepo ruleRepo upType method version cid : String)
  | startPier (repoRoot chainType pierRepo upType configPath version : String)
  deriving DecidableEq, Repr

/-- The collaborators of `pier.go`, over an arbitrary type `σ` of filesystem states.
Reading collaborators cannot change the state by their type; writing collaborators
return the new state together with their result. -/
structure Env (σ : Type) where
  /-- The value of `repo.PathRootWithDefault(path)`. -/
  pathRootWithDefault : String → Result String
  /-- The value of `filepath.Join(elems...)`. -/
  join : List String → String
  /-- The value of `ioutil.ReadFile(path)`. -/
  readFile : σ → String → Result String
  /-- The value of `json.Unmarshal(data, &release)` for `var release *Release`: the pointer
  stored in `release`, `none` being the nil pointer left by a JSON `null`. -/
  unmarshalRelease : String → Result (Option Release)
  /-- The value of `fileutil.Exist(path)`. -/
  exist : σ → String → Bool
  /-- The effect of `os.MkdirAll(path, 0755)`. -/
  mkdirAll : σ → String → σ × Result Unit
  /-- The effect of `download.Download(dst, url)`. -/
  download : σ → String → String → σ × Result Unit
  /-- The effect of `sh.Command("/bin/bash", "-c", script).Run()`. -/
  shell : σ → String → σ × Result Unit
  /-- The value of `runtime.GOOS`. -/
  goos : String
  /-- The value of `fmt.Sprintf(types.PierUrlLinux, version, version)`. -/
  pierUrlLinux : String → String
  /-- The value of `fmt.Sprintf(types.PierUrlMacOS, version, version)`. -/
  pierUrlMacOS : String → String
  /-- The effect of `pier.RegisterPier(repoRoot, pierRepo, chainType, upType, method,
  version, cid)`. -/
  registerPier : σ → String → String → String → String → String → String → String →
    σ × Result Unit
  /-- The effect of `pier.DeployRule(repoRoot, chainType, pierRepo, ruleRepo, upType, method,
  version, cid)`. -/
  deployRule : σ → String → String → String → String → String → String → String → String →
    σ × Result Unit
  /-- The effect of `pier.StartPier(repoRoot, chainType, pierRepo, upType, configPath,
  version)`. -/
  startPier : σ → String → String → String → String → String → String → σ × Result Unit
  /-- The value of `fmt.Sprintf(types.PierPlugin, chain)`. -/
  pierPlugin : String → String
  /-- The value of `fmt.Sprintf(types.PierFabricClientUrlLinux, version, version)`. -/
  pierFabricClientUrlLinux : String → String
  /-- The value of `fmt.Sprintf(types.PierEthereumClientUrlLinux, version, version)`. -/
  pierEthereumClientUrlLinux : String → String
  /-- The value of `fmt.Sprintf(types.PierFabricClientUrlMacOS, version, version)`. -/
  pierFabricClientUrlMacOS : String → String
  /-- The value of `fmt.Sprintf(types.PierEthereumClientUrlMacOS, version, version)`. -/
  pierEthereumClientUrlMacOS : String → String
  /-- The constant `types.PierConfigRepo`. -/
  pierConfigRepo : String
  /-- The constant `types.PierModifyConfig`. -/
  pierModifyConfig : String

/-- State threaded through a command: the filesystem and the collaborator calls made so
far, oldest first. -/
structure World (σ : Type) where
  fs : σ
  trace : List Effect

/-- A command step: from a world to the world it leaves and its outcome. -/
abbrev Cmd (σ α : Type) := World σ → World σ × Result α

namespace Cmd

variable {σ α β : Type}

/-- Go statement sequencing with `if err != nil { return err }` after the first step. -/
def andThen (c : Cmd σ α) (k : α → Cmd σ β) : Cmd σ β := fun w =>
  match c w with
  | (w1, Result.ok v) => k v w1
  | (w1, Result.error msg) => (w1, Result.error msg)
  | (w1, Result.panicked msg) => (w1, Result.panicked msg)

/-- Return from the enclosing function with the given outcome. -/
def ret (r : Result α) : Cmd σ α := fun w => (w, r)

/-- Record a collaborator call that only reads. -/
def reading (e : Effect) (r : σ → Result α) : Cmd σ α := fun w =>
  (World.mk w.fs (w.trace ++ [e]), r w.fs)

/-- Record a collaborator call that may write. -/
def writing (e : Effect) (r : σ → σ × Result α) : Cmd σ α := fun w =>
  (World.mk (r w.fs).1 (w.trace ++ [e]), (r w.fs).2)

/-- Replace the message of a returned error, as `fmt.Errorf` around `err` does. -/
def wrapError (f : String → String) (c : Cmd σ α) : Cmd σ α := fun w =>
  match c w with
  | (w1, Result.error msg) => (w1, Result.error (f msg))
  | other => other

end Cmd

/-! ## `downloadPierBinary` (pier.go, lines 358-396) -/

/-- Shell script run after the Linux download (line 376). -/
def extractScriptLinux (root version : String) : String :=
  "cd " ++ root ++ " && tar xf pier_linux-amd64_" ++ version ++ ".tar.gz -C " ++ root ++
    " --strip-components 1 && export LD_LIBRARY_PATH=$LD_LIBRARY_PATH:" ++ root

/-- Shell script run after the macOS download (line 388). -/
def extractScriptDarwin (root version : String) : String :=
  "cd " ++ root ++ " && tar xf pier_darwin_x86_64_" ++ version ++ ".tar.gz -C " ++ root ++
    " --strip-components 1 && install_name_tool -change @rpath/libwasmer.dylib " ++ root ++
    "/libwasmer.dylib " ++ root ++ "/pier"

/-- Embedding of `downloadPierBinary`. -/
def downloadPierBinary {σ : Type} (sys : Env σ) (repoPath version system : String) :
    Cmd σ Unit :=
  let path := "pier_" ++ system ++ "_" ++ version
  let root := sys.join [repoPath, "bin", path]
  -- lines 361-366
  (Cmd.reading (Effect.exist root) fun fs => Result.ok (sys.exist fs root)).andThen fun found =>
  (if !found then
    Cmd.writing (Effect.mkdirAll root) fun fs => sys.mkdirAll fs root
  else
    Cmd.ret (Result.ok ())).andThen fun _ =>
  -- lines 368-393
  let pierFile := sys.join [root, "pier"]
  (Cmd.reading (Effect.exist pierFile) fun fs =>
    Result.ok (sys.exist fs pierFile)).andThen fun found =>
  if !found then
    (if system = "linux" then
      let url := sys.pierUrlLinux version
      (Cmd.writing (Effect.download root url) fun fs => sys.download fs root url).andThen fun _ =>
      Cmd.wrapError (fun err => "extract pier binary: " ++ err)
        (Cmd.writing (Effect.shell (extractScriptLinux root version)) fun fs =>
          sys.shell fs (extractScriptLinux root version))
    else
      Cmd.ret (Result.ok ())).andThen fun _ =>
    if system = "darwin" then
      let url := sys.pierUrlMacOS version
      (Cmd.writing (Effect.download root url) fun fs => sys.download fs root url).andThen fun _ =>
      Cmd.wrapError (fun err => "extract pier binary: " ++ err)
        (Cmd.writing (Effect.shell (extractScriptDarwin root version)) fun fs =>
          sys.shell fs (extractScriptDarwin root version))
    else
      Cmd.ret (Result.ok ())
  else
    Cmd.ret (Result.ok ())

/-! ## `pierRegister` (pier.go, lines 238-287) -/

/-- Error text of the version check (line 262). -/
def errPierVersion : String := "unsupport pier verison"

/-- Error text of the startup-path check (line 270). -/
def errNoStartupBinary (pierRepo : String) : String :=
  "the pier startup path(" ++ pierRepo ++ ") does not have a startup binary"

/-- Error text of the container-ID check (line 274). -/
def errNeedCID : String :=
  "Docker mode needs to specify CID (you can find it by using the conmand `goduck status list`)"

/-- The field read `release.Pier` through the pointer `release`, which panics on nil. -/
def derefPier (release : Option Release) : Result (List String) :=
  match release with
  | some r => Result.ok r.Pier
  | none => Result.panicked "runtime error: invalid memory address or nil pointer dereference"

/-- Embedding of `pierRegister`. -/
def pierRegister {σ : Type} (sys : Env σ) (ctx : Flags) : Cmd σ Unit :=
  let chainType := ctx.appchain
  let upType := ctx.upType
  let method := ctx.method
  let pierRepo := ctx.pierRepo
  let version := ctx.version
  let cid := ctx.cid
  -- lines 246-249
  (Cmd.reading (Effect.pathRoot ctx.repo) fun _ =>
    sys.pathRootWithDefault ctx.repo).andThen fun repoRoot =>
  -- lines 251-254
  let manifest := sys.join [repoRoot, "release.json"]
  (Cmd.reading (Effect.readFile manifest) fun fs => sys.readFile fs manifest).andThen fun data =>
  -- lines 256-259
  (Cmd.ret (sys.unmarshalRelease data)).andThen fun release =>
  -- lines 261-263
  (Cmd.ret (derefPier release)).andThen fun supported =>
  if !AdjustVersion version supported then
    Cmd.ret (Result.error errPierVersion)
  else
  -- lines 265-267
  let pierRepo :=
    if pierRepo = "" then sys.join [repoRoot, "pier/.pier_" ++ chainType] else pierRepo
  -- lines 269-271
  (if upType = TypeBinary then
    Cmd.reading (Effect.exist pierRepo) fun fs => Result.ok (sys.exist fs pierRepo)
  else
    Cmd.ret (Result.ok true)).andThen fun found =>
  if upType = TypeBinary ∧ !found then
    Cmd.ret (Result.error (errNoStartupBinary pierRepo))
  else
  -- lines 273-275
  if upType = TypeDocker ∧ cid = "" then
    Cmd.ret (Result.error errNeedCID)
  else
  -- lines 277-283
  (if upType = TypeBinary then
    (Cmd.wrapError (fun err => "download pier binary error:" ++ err)
      (downloadPierBinary sys repoRoot version sys.goos)).andThen fun _ =>
    let binPath := sys.join [repoRoot, "bin/" ++ ("pier_" ++ sys.goos ++ "_" ++ version)]
    Cmd.writing (Effect.blue ("pier binary path: " ++ binPath)) fun fs => (fs, Result.ok ())
  else
    Cmd.ret (Result.ok ())).andThen fun _ =>
  -- line 285
  Cmd.writing (Effect.registerPier repoRoot pierRepo chainType upType method version cid)
    fun fs => sys.registerPier fs repoRoot pierRepo chainType upType method version cid

/-! ## `downloadPierPlugin` (pier.go, lines 398-467) -/

/-- Shell script run after a plugin download (lines 418, 429, 446 and 458); `archive` is
the downloaded file name. -/
def renameScript (root archive pluginName : String) : String :=
  "cd " ++ root ++ " && mv " ++ archive ++ " " ++ pluginName ++ " && chmod +x " ++ pluginName

/-- One case of the `switch chain` statements of `downloadPierPlugin`: download into
`root`, then rename the downloaded file and make it executable. -/
def fetchPlugin {σ : Type} (sys : Env σ) (root url archive pluginName errText : String) :
    Cmd σ Unit :=
  (Cmd.writing (Effect.download root url) fun fs => sys.download fs root url).andThen fun _ =>
  Cmd.wrapError (fun err => errText ++ err)
    (Cmd.writing (Effect.shell (renameScript root archive pluginName)) fun fs =>
      sys.shell fs (renameScript root archive pluginName))

/-- Embedding of `downloadPierPlugin`. -/
def downloadPierPlugin {σ : Type} (sys : Env σ) (repoPath chain version system : String) :
    Cmd σ Unit :=
  let path := "pier_" ++ system ++ "_" ++ version
  let root := sys.join [repoPath, "bin", path]
  let pluginName := sys.pierPlugin chain
  -- lines 402-407
  (Cmd.reading (Effect.exist root) fun fs => Result.ok (sys.exist fs root)).andThen fun found =>
  (if !found then
    Cmd.writing (Effect.mkdirAll root) fun fs => sys.mkdirAll fs root
  else
    Cmd.ret (Result.ok ())).andThen fun _ =>
  -- lines 408-464
  let pluginFile := sys.join [root, pluginName]
  (Cmd.reading (Effect.exist pluginFile) fun fs =>
    Result.ok (sys.exist fs pluginFile)).andThen fun found =>
  if !found then
    (if system = "linux" then
      if chain = ChainTypeFabric then
        fetchPlugin sys root (sys.pierFabricClientUrlLinux version)
          ("fabric-client-" ++ version ++ "-Linux") pluginName "rename fabric client error: "
      else if chain = ChainTypeEther then
        fetchPlugin sys root (sys.pierEthereumClientUrlLinux version)
          ("eth-client-" ++ version ++ "-Linux") pluginName "rename eth client error: "
      else
        Cmd.ret (Result.ok ())
    else
      Cmd.ret (Result.ok ())).andThen fun _ =>
    if system = "darwin" then
      if chain = ChainTypeFabric then
        fetchPlugin sys root (sys.pierFabricClientUrlMacOS version)
          ("fabric-client-" ++ version ++ "-Darwin") pluginName "rename fabric client error: "
      else if chain = ChainTypeEther then
        fetchPlugin sys root (sys.pierEthereumClientUrlMacOS version)
          ("eth-client-" ++ version ++ "-Darwin") pluginName "rename eth client error: "
      else
        Cmd.ret (Result.ok ())
    else
      Cmd.ret (Result.ok ())
  else
    Cmd.ret (Result.ok ())

/-! ## `pierRuleDeploy` (pier.go, lines 289-334) -/

/-- Embedding of `pierRuleDeploy`; `ruleRepo` is the value of the `ruleRepo` flag, the
other flags are read from `ctx`. -/
def pierRuleDeploy {σ : Type} (sys : Env σ) (ctx : Flags) (ruleRepo : String) : Cmd σ Unit :=
  let chainType := ctx.appchain
  let pierRepo := ctx.pierRepo
  let upType := ctx.upType
  let method := ctx.method
  let version := ctx.version
  let cid := ctx.cid
  -- lines 298-301
  (Cmd.reading (Effect.pathRoot ctx.repo) fun _ =>
    sys.pathRootWithDefault ctx.repo).andThen fun repoRoot =>
  -- lines 303-306
  let manifest := sys.join [repoRoot, "release.json"]
  (Cmd.reading (Effect.readFile manifest) fun fs => sys.readFile fs manifest).andThen fun data =>
  -- lines 308-311
  (Cmd.ret (sys.unmarshalRelease data)).andThen fun release =>
  -- lines 313-315
  (Cmd.ret (derefPier release)).andThen fun supported =>
  if !AdjustVersion version supported then
    Cmd.ret (Result.error errPierVersion)
  else
  -- lines 317-319
  let pierRepo :=
    if pierRepo = "" then sys.join [repoRoot, "pier/.pier_" ++ chainType] else pierRepo
  -- lines 321-323
  (if upType = TypeBinary then
    Cmd.reading (Effect.exist pierRepo) fun fs => Result.ok (sys.exist fs pierRepo)
  else
    Cmd.ret (Result.ok true)).andThen fun found =>
  if upType = TypeBinary ∧ !found then
    Cmd.ret (Result.error (errNoStartupBinary pierRepo))
  else
  -- lines 325-327
  if upType = TypeDocker ∧ cid = "" then
    Cmd.ret (Result.error errNeedCID)
  else
  -- lines 329-331
  let ruleRepo :=
    if ruleRepo = "" then
      sys.join [repoRoot, "pier/.pier_" ++ chainType ++ "/" ++ chainType ++ "/validating.wasm"]
    else ruleRepo
  -- line 333
  Cmd.writing (Effect.deployRule repoRoot chainType pierRepo ruleRepo upType method version cid)
    fun fs => sys.deployRule fs repoRoot chainType pierRepo ruleRepo upType method version cid

/-! ## `pierConfigMap` and `pierStart` (pier.go, lines 23-28 and 195-236) -/

/-- The map literal `pierConfigMap`, entry by entry. -/
def pierConfigMap : List (String × String) :=
  [("v1.6.1", "v1.6.1"), ("v1.7.0", "v1.6.1"), ("v1.8.0", "v1.8.0"), ("v1.9.0", "v1.8.0")]

/-- The Go map read `pierConfigMap[version]`, which is the empty string for a key that is
not in the map. -/
def pierConfigMapAt (version : String) : String :=
  (pierConfigMap.lookup version).getD ""

/-- Embedding of `pierStart`; `configPath` is the value of the `configPath` flag, the
other flags are read from `ctx` (the command reads neither `method` nor `cid`). -/
def pierStart {σ : Type} (sys : Env σ) (ctx : Flags) (configPath : String) : Cmd σ Unit :=
  let chainType := ctx.appchain
  let pierRepo := ctx.pierRepo
  let upType := ctx.upType
  let version := ctx.version
  -- lines 202-205
  (Cmd.reading (Effect.pathRoot ctx.repo) fun _ =>
    sys.pathRootWithDefault ctx.repo).andThen fun repoRoot =>
  -- lines 207-210
  let manifest := sys.join [repoRoot, "release.json"]
  (Cmd.reading (Effect.readFile manifest) fun fs => sys.readFile fs manifest).andThen fun data =>
  -- lines 212-215
  (Cmd.ret (sys.unmarshalRelease data)).andThen fun release =>
  -- lines 217-219
  (Cmd.ret (derefPier release)).andThen fun supported =>
  if !AdjustVersion version supported then
    Cmd.ret (Result.error errPierVersion)
  else
  -- lines 221-223
  let pierRepo :=
    if pierRepo = "" then sys.join [repoRoot, "pier/.pier_" ++ chainType] else pierRepo
  -- lines 225-229
  (if upType = TypeBinary then
    Cmd.reading (Effect.exist pierRepo) fun fs => Result.ok (sys.exist fs pierRepo)
  else
    Cmd.ret (Result.ok true)).andThen fun found =>
  (if upType = TypeBinary ∧ !found then
    Cmd.writing (Effect.mkdirAll pierRepo) fun fs => sys.mkdirAll fs pierRepo
  else
    Cmd.ret (Result.ok ())).andThen fun _ =>
  -- lines 231-233
  let configPath :=
    if configPath = "" then
      sys.join [repoRoot,
        sys.pierConfigRepo ++ "/" ++ pierConfigMapAt version ++ "/" ++ sys.pierModifyConfig]
    else configPath
  -- line 235
  Cmd.writing (Effect.startPier repoRoot chainType pierRepo upType configPath version)
    fun fs => sys.startPier fs repoRoot chainType pierRepo upType configPath version

/-! ## A concrete environment

An environment whose filesystem state is the list of the paths that exist, used to run
the commands on concrete inputs. -/

/-- Collaborators over a list of existing paths: the manifest lists the versions
`supported`, paths are joined by `Join`, and downloads and scripts succeed without
creating anything. -/
def listEnv (supported : List String) : Env (List String) where
  pathRootWithDefault := fun path => Result.ok (if path = "" then "/root/.goduck" else path)
  join := Join
  readFile := fun fs path =>
    if fs.contains path then Result.ok "manifest"
    else Result.error ("open " ++ path ++ ": no such file or directory")
  unmarshalRelease := fun _ => Result.ok (some (Release.mk supported))
  exist := fun fs path => fs.contains path
  mkdirAll := fun fs path => (path :: fs, Result.ok ())
  download := fun fs _ _ => (fs, Result.ok ())
  shell := fun fs _ => (fs, Result.ok ())
  goos := "linux"
  pierUrlLinux := fun version => "https://example.org/linux/" ++ version
  pierUrlMacOS := fun version => "https://example.org/darwin/" ++ version
  registerPier := fun fs _ _ _ _ _ _ _ => (fs, Result.ok ())
  deployRule := fun fs _ _ _ _ _ _ _ _ => (fs, Result.ok ())
  startPier := fun fs _ _ _ _ _ _ => (fs, Result.ok ())
  pierPlugin := fun chain => chain ++ "-client"
  pierFabricClientUrlLinux := fun version => "https://example.org/fabric/linux/" ++ version
  pierEthereumClientUrlLinux := fun version => "https://example.org/eth/linux/" ++ version
  pierFabricClientUrlMacOS := fun version => "https://example.org/fabric/darwin/" ++ version
  pierEthereumClientUrlMacOS := fun version => "https://example.org/eth/darwin/" ++ version
  pierConfigRepo := "pier_config"
  pierModifyConfig := "pier_modify_config.toml"

/-! ## Basic facts -/

@[simp]
theorem Result.bind_ok {α β : Type} (v : α) (f : α → Result β) :
    (Result.ok v).bind f = f v := rfl

@[simp]
theorem Result.bind_error {α β : Type} (msg : String) (f : α → Result β) :
    (Result.error msg : Result α).bind f = Result.error msg := rfl

@[simp]
theorem Result.bind_panicked {α β : Type} (msg : String) (f : α → Result β) :
    (Result.panicked msg : Result α).bind f = Result.panicked msg := rfl

theorem chainTypeEther_ne_fabric : ChainTypeEther ≠ ChainTypeFabric := by decide

/-! ### `strings.Split` -/

theorem splitChars_ne_nil (sep : List Char) (skip : Nat) (s acc : List Char) :
    splitChars sep skip s acc ≠ [] := by
  induction s generalizing skip acc with
  | nil => simp [splitChars]
  | cons c cs ih =>
    cases skip with
    | zero =>
      unfold splitChars
      split
      · simp
      · exact ih 0 (c :: acc)
    | succ n =>
      unfold splitChars
      exact ih n acc

theorem Split_ne_nil (s sep : String) (hsep : sep ≠ "") : Split s sep ≠ [] := by
  have hdata : sep.data ≠ [] := by
    intro h
    apply hsep
    cases sep
    simp_all
  simp [Split, hdata, splitChars_ne_nil]

theorem Split_empty_comma : Split "" "," = [""] := by decide

theorem Split_sentinel_comma : Split "0000" "," = ["0000"] := by decide

/-! ### The port map and `checkPorts` -/

theorem mapGet_eq_none_iff (m : PortMap) (k : String) :
    mapGet m k = none ↔ k ∉ m.map Prod.fst := by
  induction m with
  | nil => simp [mapGet]
  | cons e rest ih =>
    obtain ⟨a, b⟩ := e
    unfold mapGet at ih ⊢
    by_cases hk : k = a
    · subst hk
      simp [List.lookup]
    · have hbeq : (k == a) = false := by simpa using hk
      simp [List.lookup, hbeq, ih, hk]

theorem mem_keys_mapSet (m : PortMap) (k x : String) (v : Nat) :
    x ∈ (mapSet m k v).map Prod.fst ↔ x = k ∨ x ∈ m.map Prod.fst := by
  unfold mapSet
  simp only [List.map_cons, List.mem_cons, List.mem_map, List.mem_filter]
  constructor
  · rintro (h | ⟨e, ⟨he, _⟩, rfl⟩)
    · exact Or.inl h
    · exact Or.inr ⟨e, he, rfl⟩
  · rintro (h | ⟨e, he, rfl⟩)
    · exact Or.inl h
    · by_cases hk : e.1 = k
      · exact Or.inl hk
      · exact Or.inr ⟨e, ⟨he, by simpa using hk⟩, rfl⟩

theorem checkPortsLoop_eq_none_iff (portM : PortMap) (i : Nat) (ports : List String) :
    checkPortsLoop portM i ports = none ↔
      ports.Nodup ∧ ∀ p ∈ ports, p ∉ portM.map Prod.fst := by
  induction ports generalizing portM i with
  | nil => simp [checkPortsLoop]
  | cons p rest ih =>
    unfold checkPortsLoop
    cases hget : mapGet portM p with
    | some v =>
      have hmem : ¬ p ∉ portM.map Prod.fst := by
        rw [← mapGet_eq_none_iff, hget]
        simp
      simp only [List.nodup_cons, List.mem_cons, forall_eq_or_imp]
      constructor
      · intro h
        cases h
      · rintro ⟨_, h, _⟩
        exact absurd h hmem
    | none =>
      have hmem : p ∉ portM.map Prod.fst := (mapGet_eq_none_iff portM p).mp hget
      simp only [ih, mem_keys_mapSet, List.nodup_cons, List.mem_cons, forall_eq_or_imp, not_or]
      constructor
      · rintro ⟨hnd, h⟩
        exact ⟨⟨fun hp => (h p hp).1 rfl, hnd⟩, hmem, fun q hq => (h q hq).2⟩
      · rintro ⟨⟨hp, hnd⟩, _, h⟩
        refine ⟨hnd, fun q hq => ⟨?_, h q hq⟩⟩
        rintro rfl
        exact hp hq

theorem checkPortsLoop_some_mem (portM : PortMap) (i : Nat) (ports : List String) (p : String)
    (h : checkPortsLoop portM i ports = some p) : p ∈ ports := by
  induction ports generalizing portM i with
  | nil => simp [checkPortsLoop] at h
  | cons q rest ih =>
    unfold checkPortsLoop at h
    cases hget : mapGet portM q with
    | some v =>
      rw [hget] at h
      simp only [Option.some.injEq] at h
      simp [h]
    | none =>
      rw [hget] at h
      exact List.mem_cons_of_mem _ (ih _ _ h)

theorem checkPorts_eq_none_iff (ports : List String) :
    checkPorts ports = none ↔ ports.Nodup := by
  simp [checkPorts, checkPortsLoop_eq_none_iff]

theorem checkPorts_some_mem (ports : List String) (p : String)
    (h : checkPorts ports = some p) : p ∈ ports :=
  checkPortsLoop_some_mem [] 0 ports p h

theorem not_nodup_of_getElem? (xs : List String) (i j : Nat) (p : String) (hij : i ≠ j)
    (hi : xs[i]? = some p) (hj : xs[j]? = some p) : ¬ xs.Nodup := by
  intro hnd
  obtain ⟨hi', hpi⟩ := List.getElem?_eq_some.mp hi
  obtain ⟨hj', hpj⟩ := List.getElem?_eq_some.mp hj
  exact hij ((List.Nodup.getElem_inj_iff hnd).mp (hpi.trans hpj.symm))

theorem length_ne_one_of_getElem? (xs : List String) (i j : Nat) (p : String) (hij : i ≠ j)
    (hi : xs[i]? = some p) (hj : xs[j]? = some p) : xs.length ≠ 1 := by
  obtain ⟨hi', _⟩ := List.getElem?_eq_some.mp hi
  obtain ⟨hj', _⟩ := List.getElem?_eq_some.mp hj
  omega

/-! ### Strings -/

theorem ne_empty_of_data_ne_nil {s : String} (h : s.data ≠ []) : s ≠ "" := by
  intro hs
  apply h
  rw [hs]

theorem append_colon_append_ne_empty (x y : String) : x ++ ":" ++ y ≠ "" := by
  apply ne_empty_of_data_ne_nil
  simp

theorem exists_of_length_nine (l : List String) (h : l.length = 9) :
    ∃ a b c d e f g h i, l = [a, b, c, d, e, f, g, h, i] := by
  match l, h with
  | [a, b, c, d, e, f, g, h, i], _ => exact ⟨a, b, c, d, e, f, g, h, i, rfl⟩

theorem exists_of_length_one (l : List String) (h : l.length = 1) : ∃ a, l = [a] := by
  match l, h with
  | [a], _ => exact ⟨a, rfl⟩

theorem defaultIP_ne_empty (ip : String) : (if ip = "" then "127.0.0.1" else ip) ≠ "" := by
  split
  · decide
  · assumption

theorem exists_cons_of_ne_nil (l : List String) (h : l ≠ []) : ∃ x rest, l = x :: rest := by
  cases l with
  | nil => exact absurd rfl h
  | cons x rest => exact ⟨x, rest, rfl⟩

/-! ### Shape of the results of `getAppchainParams` -/

/-- On a list of nine ports the condition of line 553 evaluates, without a panic, to the
conjunction over the 3rd, 5th, 7th and 9th ports. -/
theorem fabric_addr_condition (addr a b c d e f g h i : String) :
    (andAlso (addrLacksPort addr [a, b, c, d, e, f, g, h, i] 2) fun _ =>
      andAlso (addrLacksPort addr [a, b, c, d, e, f, g, h, i] 4) fun _ =>
      andAlso (addrLacksPort addr [a, b, c, d, e, f, g, h, i] 6) fun _ =>
      addrLacksPort addr [a, b, c, d, e, f, g, h, i] 8)
    = Result.ok (!Contains addr c && !Contains addr e && !Contains addr g && !Contains addr i) := by
  cases h2 : Contains addr c <;> cases h4 : Contains addr e <;>
    cases h6 : Contains addr g <;> cases h8 : Contains addr i <;>
    simp [andAlso, addrLacksPort, index, h2, h4, h6, h8]

/-- Every call of `getAppchainParams` returns an error or a triple and never panics; the
triple of a Fabric call has nine ports, that of an Ethereum call one port, the address
is never empty, and the ip is empty only when it was read off a given Fabric address
whose text before the first colon is empty. -/
theorem getAppchainParams_shape
    (chainType appchainIP appchainPorts appchainAddr cryptoPath : String) :
    match getAppchainParams chainType appchainIP appchainPorts appchainAddr cryptoPath with
    | Result.ok (ports, addr, ip) =>
      addr ≠ "" ∧
      ((chainType = ChainTypeFabric ∧ ports.length = 9 ∧
          (ip ≠ "" ∨ (appchainIP = "" ∧ appchainAddr ≠ "" ∧
            (Split appchainAddr ":").head? = some ""))) ∨
        (chainType = ChainTypeEther ∧ ports.length = 1 ∧ ip ≠ ""))
    | Result.error _ => True
    | Result.panicked _ => False := by
  by_cases hF : chainType = ChainTypeFabric
  · subst hF
    by_cases hports : appchainPorts = ""
    · subst hports
      by_cases haddr : appchainAddr = ""
      · subst haddr
        by_cases hcrypto : cryptoPath = ""
        · simp [getAppchainParams, index, fabricDefaultPorts, hcrypto]
        · simp [getAppchainParams, index, fabricDefaultPorts, hcrypto]
          exact ⟨append_colon_append_ne_empty _ _, defaultIP_ne_empty _⟩
      · simp [getAppchainParams, haddr]
    · by_cases hlen : (Split appchainPorts ",").length = 9
      · cases hdup : checkPorts (Split appchainPorts ",") with
        | some p => simp [getAppchainParams, hports, hlen, hdup]
        | none =>
          obtain ⟨a, b, c, d, e, f, g, h, i, hps⟩ := exists_of_length_nine _ hlen
          rw [hps] at hdup
          by_cases haddr : appchainAddr = ""
          · subst haddr
            by_cases hcrypto : cryptoPath = ""
            · simp [getAppchainParams, index, hports, hps, hdup, hcrypto]
            · simp [getAppchainParams, index, hports, hps, hdup, hcrypto]
              exact ⟨append_colon_append_ne_empty _ _, defaultIP_ne_empty _⟩
          · obtain ⟨x, rest, hx⟩ := exists_cons_of_ne_nil _
              (Split_ne_nil appchainAddr ":" (by decide))
            simp only [getAppchainParams, if_true, hports, hps, hdup, haddr, if_false,
              List.length_cons, List.length_nil, ne_eq, not_true_eq_false, not_false_eq_true,
              Result.bind_ok, fabric_addr_condition]
            generalize (!Contains appchainAddr c && !Contains appchainAddr e &&
              !Contains appchainAddr g && !Contains appchainAddr i) = inconsistent
            cases inconsistent
            · by_cases hip : appchainIP = ""
              · by_cases hcrypto : cryptoPath = "" <;> by_cases hxe : x = "" <;>
                  simp [index, hx, hip, hcrypto, haddr, hxe]
              · by_cases hcrypto : cryptoPath = "" <;>
                  cases hc : Contains appchainAddr appchainIP <;>
                  simp [hip, hcrypto, haddr, hc]
            · simp
      · simp [getAppchainParams, hports, hlen]
  · by_cases hE : chainType = ChainTypeEther
    · subst hE
      by_cases haddr : appchainAddr = ""
      · subst haddr
        by_cases hports : appchainPorts = ""
        · subst hports
          simp [getAppchainParams, chainTypeEther_ne_fabric, index]
          exact ⟨append_colon_append_ne_empty _ _, defaultIP_ne_empty _⟩
        · by_cases hlen : (Split appchainPorts ",").length = 1
          · obtain ⟨p0, hp0⟩ := exists_of_length_one _ hlen
            simp [getAppchainParams, chainTypeEther_ne_fabric, index, hports, hp0]
            exact ⟨append_colon_append_ne_empty _ _, defaultIP_ne_empty _⟩
          · simp [getAppchainParams, chainTypeEther_ne_fabric, hports, hlen]
      · have hany : ("0.0.0.0" : String) ≠ "" := by decide
        have hstage : ∀ appPorts : List String, appPorts.length = 1 →
            match (if appchainIP ≠ "" then
                if appchainIP ≠ "0.0.0.0" then
                  if !Contains appchainAddr appchainIP then
                    Result.error errAddrIP
                  else
                    Result.ok (appPorts, appchainAddr, appchainIP)
                else
                  Result.ok (appPorts, appchainAddr, appchainIP)
              else
                Result.ok (appPorts, appchainAddr, "0.0.0.0") :
                  Result (List String × String × String)) with
            | Result.ok (ports, addr, ip) => addr ≠ "" ∧ ports.length = 1 ∧ ip ≠ ""
            | Result.error _ => True
            | Result.panicked _ => False := by
          intro appPorts hone
          by_cases hip : appchainIP = ""
          · simp [hip, haddr, hone]
          · by_cases hz : appchainIP = "0.0.0.0"
            · simp [hz, haddr, hone]
            · cases hc : Contains appchainAddr appchainIP <;> simp [hip, hz, hc, haddr, hone]
        by_cases hports : appchainPorts = ""
        · simpa [getAppchainParams, chainTypeEther_ne_fabric, haddr, hports] using
            hstage ["0000"] rfl
        · by_cases hsent : appchainPorts = "0000"
          · simpa [getAppchainParams, chainTypeEther_ne_fabric, haddr, hsent] using
              hstage ["0000"] rfl
          · by_cases hlen : (Split appchainPorts ",").length = 1
            · obtain ⟨p0, hp0⟩ := exists_of_length_one _ hlen
              cases hc : Contains appchainAddr p0
              · simp [getAppchainParams, chainTypeEther_ne_fabric, haddr, hports, hsent, hp0,
                  index, hc]
              · simpa [getAppchainParams, chainTypeEther_ne_fabric, haddr, hports, hsent, hp0,
                  index, hc] using hstage [p0] rfl
            · simp [getAppchainParams, chainTypeEther_ne_fabric, haddr, hports, hsent, hlen]
    · simp [getAppchainParams, hF, hE]

/-! ## Appchain parameter resolution -/

/-- C1 (as amended): for the Ethereum chain type with ip, address and ports all empty,
`getAppchainParams` succeeds for every crypto path and returns ip `127.0.0.1`, address
`ws://127.0.0.1:8546` and ports `["8546"]`. -/
theorem getAppchainParams_ether_defaults (cryptoPath : String) :
    getAppchainParams ChainTypeEther "" "" "" cryptoPath
      = Result.ok (["8546"], "ws://127.0.0.1:8546", "127.0.0.1") := by
  simp [getAppchainParams, chainTypeEther_ne_fabric, index]

/-- C1 counterexample: with every input empty the Ethereum result is not the triple built
on the wildcard ip `0.0.0.0`. -/
theorem getAppchainParams_ether_defaults_not_wildcard :
    getAppchainParams ChainTypeEther "" "" "" ""
      ≠ Result.ok (["8546"], "ws://0.0.0.0:8546", "0.0.0.0") := by
  decide

/-- C2: for the Fabric chain type with ip, address and ports all empty and a non-empty
crypto path, `getAppchainParams` succeeds with the nine default ports in order, ip
`127.0.0.1` and address `127.0.0.1:7053`, the default ip joined with the third default
port. -/
theorem getAppchainParams_fabric_defaults (cryptoPath : String) (hcrypto : cryptoPath ≠ "") :
    getAppchainParams ChainTypeFabric "" "" "" cryptoPath
      = Result.ok (["7050", "7051", "7053", "8051", "8053", "9051", "9053", "10051", "10053"],
          "127.0.0.1:7053", "127.0.0.1") ∧
    index ["7050", "7051", "7053", "8051", "8053", "9051", "9053", "10051", "10053"] 2
      = Result.ok "7053" := by
  simp [getAppchainParams, index, fabricDefaultPorts, hcrypto]

/-- C2 witness: crypto path `crypto-config`. -/
theorem getAppchainParams_fabric_defaults_witness :
    getAppchainParams ChainTypeFabric "" "" "" "crypto-config"
      = Result.ok (["7050", "7051", "7053", "8051", "8053", "9051", "9053", "10051", "10053"],
          "127.0.0.1:7053", "127.0.0.1") :=
  (getAppchainParams_fabric_defaults "crypto-config" (by decide)).1

/-- C5: for the Fabric chain type, a non-empty port string whose comma-split does not have
nine entries makes `getAppchainParams` fail with the port-count error, whatever the ip,
the address and the crypto path are and whether or not the entries repeat. -/
theorem getAppchainParams_fabric_port_count
    (appchainIP appchainPorts appchainAddr cryptoPath : String)
    (hports : appchainPorts ≠ "") (hlen : (Split appchainPorts ",").length ≠ 9) :
    getAppchainParams ChainTypeFabric appchainIP appchainPorts appchainAddr cryptoPath
      = Result.error errFabricPortCount := by
  simp [getAppchainParams, hports, hlen]

/-- C5 witness: two equal ports, an address that names neither of them, an ip the address
does not contain and an empty crypto path still give the port-count error. -/
theorem getAppchainParams_fabric_port_count_witness :
    getAppchainParams ChainTypeFabric "10.0.0.1" "7050,7050" "127.0.0.1:9999" ""
      = Result.error errFabricPortCount :=
  getAppchainParams_fabric_port_count "10.0.0.1" "7050,7050" "127.0.0.1:9999" ""
    (by decide) (by decide)

/-- C6 (as amended): when some port value occurs at two different positions of the
comma-split port string, a Fabric call with exactly nine ports fails with the
duplicate-port error naming a port of the list, a Fabric call with another number of
ports fails with the port-count error, and an Ethereum call, which never runs
`checkPorts`, fails with its port-count error. -/
theorem getAppchainParams_duplicate_ports
    (appchainIP appchainPorts appchainAddr cryptoPath p : String) (i j : Nat) (hij : i ≠ j)
    (hi : (Split appchainPorts ",")[i]? = some p)
    (hj : (Split appchainPorts ",")[j]? = some p) :
    ((Split appchainPorts ",").length = 9 →
      ∃ q, q ∈ Split appchainPorts "," ∧
        getAppchainParams ChainTypeFabric appchainIP appchainPorts appchainAddr cryptoPath
          = Result.error (errPortRepeated ++ q)) ∧
    ((Split appchainPorts ",").length ≠ 9 →
      getAppchainParams ChainTypeFabric appchainIP appchainPorts appchainAddr cryptoPath
        = Result.error errFabricPortCount) ∧
    getAppchainParams ChainTypeEther appchainIP appchainPorts appchainAddr cryptoPath
      = Result.error errEtherPortCount := by
  have hone : (Split appchainPorts ",").length ≠ 1 :=
    length_ne_one_of_getElem? _ i j p hij hi hj
  have hports : appchainPorts ≠ "" := by
    rintro rfl
    exact hone (by rw [Split_empty_comma]; rfl)
  have hsent : appchainPorts ≠ "0000" := by
    rintro rfl
    exact hone (by rw [Split_sentinel_comma]; rfl)
  refine ⟨?_, ?_, ?_⟩
  · intro hlen
    have hdup : checkPorts (Split appchainPorts ",") ≠ none := fun hnone =>
      not_nodup_of_getElem? _ i j p hij hi hj ((checkPorts_eq_none_iff _).mp hnone)
    cases hc : checkPorts (Split appchainPorts ",") with
    | none => exact absurd hc hdup
    | some q =>
      exact ⟨q, checkPorts_some_mem _ q hc, by simp [getAppchainParams, hports, hlen, hc]⟩
  · intro hlen
    simp [getAppchainParams, hports, hlen]
  · by_cases haddr : appchainAddr = ""
    · simp [getAppchainParams, chainTypeEther_ne_fabric, haddr, hports, hone]
    · simp [getAppchainParams, chainTypeEther_ne_fabric, haddr, hports, hsent, hone]

/-- C6 witness: nine Fabric ports whose first and last entries are both `7050`. -/
theorem getAppchainParams_duplicate_ports_witness :
    ∃ q, q ∈ Split "7050,7051,7053,8051,8053,9051,9053,10051,7050" "," ∧
      getAppchainParams ChainTypeFabric ""
          "7050,7051,7053,8051,8053,9051,9053,10051,7050" "" "crypto-config"
        = Result.error (errPortRepeated ++ q) :=
  (getAppchainParams_duplicate_ports ""
    "7050,7051,7053,8051,8053,9051,9053,10051,7050" "" "crypto-config" "7050" 0 8
    (by decide) (by decide) (by decide)).1 (by decide)

/-- C6 counterexample: the port string `7050,7050` repeats a value at positions 0 and 1,
yet both chain types answer with their port-count error, which is not a duplicate-port
error. -/
theorem getAppchainParams_duplicate_ports_short_list :
    (Split "7050,7050" ",")[0]? = some "7050" ∧ (Split "7050,7050" ",")[1]? = some "7050" ∧
    getAppchainParams ChainTypeFabric "" "7050,7050" "" "crypto-config"
      = Result.error errFabricPortCount ∧
    getAppchainParams ChainTypeEther "" "7050,7050" "" ""
      = Result.error errEtherPortCount ∧
    isDuplicatePortError (Result.error errFabricPortCount : Result Unit) = false ∧
    isDuplicatePortError (Result.error errEtherPortCount : Result Unit) = false := by
  decide

/-- C7 (as amended): for the Ethereum chain type with the port string `0000` and a
non-empty address, no port check is applied to the address: the call returns ports
`["0000"]` and the address unchanged when the ip is empty (the ip becomes `0.0.0.0`),
equal to `0.0.0.0`, or contained in the address; for any other ip it fails with the
address/ip inconsistency error. -/
theorem getAppchainParams_ether_sentinel (appchainIP appchainAddr cryptoPath : String)
    (haddr : appchainAddr ≠ "") :
    (appchainIP = "" →
      getAppchainParams ChainTypeEther appchainIP "0000" appchainAddr cryptoPath
        = Result.ok (["0000"], appchainAddr, "0.0.0.0")) ∧
    (appchainIP ≠ "" → appchainIP = "0.0.0.0" ∨ Contains appchainAddr appchainIP = true →
      getAppchainParams ChainTypeEther appchainIP "0000" appchainAddr cryptoPath
        = Result.ok (["0000"], appchainAddr, appchainIP)) ∧
    (appchainIP ≠ "" → appchainIP ≠ "0.0.0.0" → Contains appchainAddr appchainIP = false →
      getAppchainParams ChainTypeEther appchainIP "0000" appchainAddr cryptoPath
        = Result.error errAddrIP) := by
  have hsent : ("0000" : String) ≠ "" := by decide
  refine ⟨?_, ?_, ?_⟩
  · intro hip
    simp [getAppchainParams, chainTypeEther_ne_fabric, haddr, hip]
  · intro hip hok
    by_cases hany : appchainIP = "0.0.0.0"
    · simp [getAppchainParams, chainTypeEther_ne_fabric, haddr, hany]
    · have hc : Contains appchainAddr appchainIP = true := hok.resolve_left hany
      simp [getAppchainParams, chainTypeEther_ne_fabric, haddr, hip, hany, hc]
  · intro hip hany hc
    simp [getAppchainParams, chainTypeEther_ne_fabric, haddr, hip, hany, hc]

/-- C7 witness: an address that does not contain `0000`, with the ip left empty. -/
theorem getAppchainParams_ether_sentinel_witness :
    getAppchainParams ChainTypeEther "" "0000" "ws://10.0.0.5:8546" ""
      = Result.ok (["0000"], "ws://10.0.0.5:8546", "0.0.0.0") :=
  (getAppchainParams_ether_sentinel "" "ws://10.0.0.5:8546" "" (by decide)).1 rfl

/-- C7 counterexample: with the port string `0000`, the ip `10.0.0.1` and an address that
does not contain this ip, the call fails. -/
theorem getAppchainParams_ether_sentinel_ip_mismatch :
    getAppchainParams ChainTypeEther "10.0.0.1" "0000" "ws://10.0.0.5:8546" ""
      = Result.error errAddrIP := by
  decide

/-- C8 (as amended): `getAppchainParams` never panics, so no port index is out of range,
and returns either an error or a triple whose port list and address are non-empty and
whose ip is non-empty unless the chain type is Fabric, no ip was given and the given
address has nothing before its first colon. -/
theorem getAppchainParams_total
    (chainType appchainIP appchainPorts appchainAddr cryptoPath : String) :
    match getAppchainParams chainType appchainIP appchainPorts appchainAddr cryptoPath with
    | Result.ok (ports, addr, ip) =>
      ports ≠ [] ∧ addr ≠ "" ∧
        (ip ≠ "" ∨ (chainType = ChainTypeFabric ∧ appchainIP = "" ∧ appchainAddr ≠ "" ∧
          (Split appchainAddr ":").head? = some ""))
    | Result.error _ => True
    | Result.panicked _ => False := by
  have hshape := getAppchainParams_shape chainType appchainIP appchainPorts appchainAddr cryptoPath
  generalize getAppchainParams chainType appchainIP appchainPorts appchainAddr cryptoPath = r
    at hshape
  cases r with
  | error msg => trivial
  | panicked msg => exact hshape
  | ok v =>
    obtain ⟨ports, addr, ip⟩ := v
    simp only at hshape ⊢
    obtain ⟨haddr, ⟨hF, hlen, hip⟩ | ⟨_, hlen, hip⟩⟩ := hshape
    · refine ⟨?_, haddr, ?_⟩
      · rintro rfl
        simp at hlen
      · rcases hip with hip | ⟨h1, h2, h3⟩
        · exact Or.inl hip
        · exact Or.inr ⟨hF, h1, h2, h3⟩
    · refine ⟨?_, haddr, Or.inl hip⟩
      rintro rfl
      simp at hlen

/-- C8 counterexample: a Fabric call with nine distinct ports, no ip and the address
`:7053` succeeds with an empty ip. -/
theorem getAppchainParams_fabric_empty_ip :
    getAppchainParams ChainTypeFabric "" "7050,7051,7053,8051,8053,9051,9053,10051,10053"
        ":7053" "crypto-config"
      = Result.ok (["7050", "7051", "7053", "8051", "8053", "9051", "9053", "10051", "10053"],
          ":7053", "") := by
  decide

/-- C9: whenever `getAppchainParams` succeeds the chain type is Fabric or Ethereum, and the
returned port list has exactly nine entries for Fabric and exactly one for Ethereum. -/
theorem getAppchainParams_port_cardinality
    (chainType appchainIP appchainPorts appchainAddr cryptoPath : String)
    (ports : List String) (addr ip : String)
    (hok : getAppchainParams chainType appchainIP appchainPorts appchainAddr cryptoPath
      = Result.ok (ports, addr, ip)) :
    (chainType = ChainTypeFabric ∨ chainType = ChainTypeEther) ∧
    (chainType = ChainTypeFabric → ports.length = 9) ∧
    (chainType = ChainTypeEther → ports.length = 1) := by
  have hshape := getAppchainParams_shape chainType appchainIP appchainPorts appchainAddr cryptoPath
  rw [hok] at hshape
  simp only at hshape
  obtain ⟨_, ⟨hF, hlen, _⟩ | ⟨hE, hlen, _⟩⟩ := hshape
  · refine ⟨Or.inl hF, fun _ => hlen, fun hE => ?_⟩
    exact absurd (hE.symm.trans hF) chainTypeEther_ne_fabric
  · refine ⟨Or.inr hE, fun hF => ?_, fun _ => hlen⟩
    exact absurd (hE.symm.trans hF) chainTypeEther_ne_fabric

/-- C9 witness: the Ethereum sentinel path returns the single port `0000`. -/
theorem getAppchainParams_port_cardinality_witness :
    (["0000"] : List String).length = 1 :=
  (getAppchainParams_port_cardinality ChainTypeEther "" "0000" "ws://10.0.0.5:8546" ""
    ["0000"] "ws://10.0.0.5:8546" "0.0.0.0" (by decide)).2.2 rfl

/-- C10 (as amended): for the Fabric chain type with no ports given and a non-empty crypto
path, `getAppchainParams` falls back to the nine default ports when the address is
unset, returning the given ip (or `127.0.0.1`) and that ip joined with `7053`; when an
address is supplied it fails, asking for the ports to be specified. -/
theorem getAppchainParams_fabric_no_ports (appchainIP cryptoPath : String)
    (hcrypto : cryptoPath ≠ "") :
    getAppchainParams ChainTypeFabric appchainIP "" "" cryptoPath
      = Result.ok (["7050", "7051", "7053", "8051", "8053", "9051", "9053", "10051", "10053"],
          (if appchainIP = "" then "127.0.0.1" else appchainIP) ++ ":" ++ "7053",
          if appchainIP = "" then "127.0.0.1" else appchainIP) ∧
    ∀ appchainAddr : String, appchainAddr ≠ "" →
      getAppchainParams ChainTypeFabric appchainIP "" appchainAddr cryptoPath
        = Result.error errFabricOtherPorts := by
  constructor
  · simp [getAppchainParams, index, fabricDefaultPorts, hcrypto]
  · intro appchainAddr haddr
    simp [getAppchainParams, haddr]

/-- C10 witness: the ip `10.0.0.1` with no address and no ports. -/
theorem getAppchainParams_fabric_no_ports_witness :
    getAppchainParams ChainTypeFabric "10.0.0.1" "" "" "crypto-config"
      = Result.ok (["7050", "7051", "7053", "8051", "8053", "9051", "9053", "10051", "10053"],
          "10.0.0.1:7053", "10.0.0.1") :=
  (getAppchainParams_fabric_no_ports "10.0.0.1" "crypto-config" (by decide)).1

/-- C10 counterexample: no ports, no ip, an address and a crypto path: the call fails
instead of returning the default ports. -/
theorem getAppchainParams_fabric_no_ports_with_addr :
    getAppchainParams ChainTypeFabric "" "" "127.0.0.1:7053" "crypto-config"
      = Result.error errFabricOtherPorts := by
  decide

/-! ## The register command -/

/-- C3 (as amended): in docker mode with an empty container ID, once the release manifest
has been loaded, `pierRegister` fails with the missing-container-ID error when the
requested version is supported, having made no call beyond resolving the repo root and
reading the manifest; the version check comes first, so with an unsupported version it
fails with the unsupported-version error instead. -/
theorem pierRegister_docker_empty_cid {σ : Type} (sys : Env σ) (ctx : Flags) (w : World σ)
    (repoRoot data : String) (release : Release)
    (hmode : ctx.upType = TypeDocker) (hcid : ctx.cid = "")
    (hroot : sys.pathRootWithDefault ctx.repo = Result.ok repoRoot)
    (hread : sys.readFile w.fs (sys.join [repoRoot, "release.json"]) = Result.ok data)
    (hjson : sys.unmarshalRelease data = Result.ok (some release)) :
    (AdjustVersion ctx.version release.Pier = true →
      pierRegister sys ctx w =
        (World.mk w.fs (w.trace ++ [Effect.pathRoot ctx.repo,
            Effect.readFile (sys.join [repoRoot, "release.json"])]),
          Result.error errNeedCID)) ∧
    (AdjustVersion ctx.version release.Pier = false →
      pierRegister sys ctx w =
        (World.mk w.fs (w.trace ++ [Effect.pathRoot ctx.repo,
            Effect.readFile (sys.join [repoRoot, "release.json"])]),
          Result.error errPierVersion)) := by
  have hne : TypeDocker ≠ TypeBinary := by decide
  constructor
  · intro hver
    simp [pierRegister, Cmd.andThen, Cmd.reading, Cmd.ret, derefPier, hroot, hread, hjson, hver,
      hmode, hcid, hne]
  · intro hver
    simp [pierRegister, Cmd.andThen, Cmd.reading, Cmd.ret, derefPier, hroot, hread, hjson, hver]

/-- C3 witness: docker mode, empty container ID, supported version `v1.6.1`. -/
theorem pierRegister_docker_empty_cid_witness :
    (pierRegister (listEnv ["v1.6.1"])
        (Flags.mk "ethereum" "docker" "appchain" "" "v1.6.1" "" "/repo")
        (World.mk ["/repo/release.json"] [])).2 = Result.error errNeedCID :=
  congrArg Prod.snd
    ((pierRegister_docker_empty_cid (listEnv ["v1.6.1"])
      (Flags.mk "ethereum" "docker" "appchain" "" "v1.6.1" "" "/repo")
      (World.mk ["/repo/release.json"] []) "/repo" "manifest" (Release.mk ["v1.6.1"])
      (by decide) (by decide) (by decide) (by decide) (by decide)).1 (by decide))

/-- C3 counterexample: docker mode, empty container ID and the version `v9.9.9`, which the
manifest does not list: the error is the unsupported-version error, not the
missing-container-ID error. -/
theorem pierRegister_docker_empty_cid_bad_version :
    (pierRegister (listEnv ["v1.6.1"])
        (Flags.mk "ethereum" "docker" "appchain" "" "v9.9.9" "" "/repo")
        (World.mk ["/repo/release.json"] [])).2 = Result.error errPierVersion ∧
    errPierVersion ≠ errNeedCID := by
  decide

/-- C4: in binary mode with a supported version, when the instance directory (the
`pierRepo` flag, or `repoRoot/pier/.pier_<chainType>` by default) does not exist,
`pierRegister` fails with the missing-startup-binary error, leaves the filesystem as it
was, and its only collaborator calls are the repo-root lookup, the manifest read and the
existence test of the instance directory: `downloadPierBinary`, whose first action is an
existence test of the binary directory, is not run, and neither is the download. -/
theorem pierRegister_binary_missing_repo {σ : Type} (sys : Env σ) (ctx : Flags)
    (w : World σ) (repoRoot data pierRepo : String) (release : Release)
    (hmode : ctx.upType = TypeBinary)
    (hroot : sys.pathRootWithDefault ctx.repo = Result.ok repoRoot)
    (hread : sys.readFile w.fs (sys.join [repoRoot, "release.json"]) = Result.ok data)
    (hjson : sys.unmarshalRelease data = Result.ok (some release))
    (hver : AdjustVersion ctx.version release.Pier = true)
    (hrepo : pierRepo =
      if ctx.pierRepo = "" then sys.join [repoRoot, "pier/.pier_" ++ ctx.appchain]
      else ctx.pierRepo)
    (hmissing : sys.exist w.fs pierRepo = false) :
    (pierRegister sys ctx w).2 = Result.error (errNoStartupBinary pierRepo) ∧
    (pierRegister sys ctx w).1.fs = w.fs ∧
    (pierRegister sys ctx w).1.trace =
      w.trace ++ [Effect.pathRoot ctx.repo,
        Effect.readFile (sys.join [repoRoot, "release.json"]), Effect.exist pierRepo] ∧
    (∀ dst url, Effect.download dst url ∈ (pierRegister sys ctx w).1.trace →
      Effect.download dst url ∈ w.trace) := by
  subst hrepo
  have hrun : pierRegister sys ctx w =
      (World.mk w.fs (w.trace ++ [Effect.pathRoot ctx.repo,
          Effect.readFile (sys.join [repoRoot, "release.json"]),
          Effect.exist (if ctx.pierRepo = "" then
            sys.join [repoRoot, "pier/.pier_" ++ ctx.appchain] else ctx.pierRepo)]),
        Result.error (errNoStartupBinary (if ctx.pierRepo = "" then
            sys.join [repoRoot, "pier/.pier_" ++ ctx.appchain] else ctx.pierRepo))) := by
    simp [pierRegister, Cmd.andThen, Cmd.reading, Cmd.ret, derefPier, hroot, hread, hjson, hver,
      hmode, hmissing]
  rw [hrun]
  refine ⟨rfl, rfl, rfl, ?_⟩
  intro dst url hmem
  simpa using hmem

/-- C4 witness: binary mode, version `v1.6.1`, no instance directory under `/repo`. -/
theorem pierRegister_binary_missing_repo_witness :
    (pierRegister (listEnv ["v1.6.1"])
        (Flags.mk "ethereum" "binary" "appchain" "" "v1.6.1" "" "/repo")
        (World.mk ["/repo/release.json"] [])).2
      = Result.error (errNoStartupBinary "/repo/pier/.pier_ethereum") :=
  (pierRegister_binary_missing_repo (listEnv ["v1.6.1"])
    (Flags.mk "ethereum" "binary" "appchain" "" "v1.6.1" "" "/repo")
    (World.mk ["/repo/release.json"] []) "/repo" "manifest" "/repo/pier/.pier_ethereum"
    (Release.mk ["v1.6.1"])
    (by decide) (by decide) (by decide) (by decide) (by decide) (by decide) (by decide)).1

/-! ## Appchain parameter resolution: consistency checks -/

theorem Result.bind_assoc {α β γ : Type} (r : Result α) (f : α → Result β)
    (g : β → Result γ) : (r.bind f).bind g = r.bind fun a => (f a).bind g := by
  cases r <;> rfl

/-- With an empty crypto path a Fabric call returns what the same call with any crypto
path returns, except that a success becomes the missing-crypto-path error. -/
theorem getAppchainParams_fabric_without_crypto
    (appchainIP appchainPorts appchainAddr cryptoPath : String) :
    getAppchainParams ChainTypeFabric appchainIP appchainPorts appchainAddr ""
      = (getAppchainParams ChainTypeFabric appchainIP appchainPorts appchainAddr cryptoPath).bind
          fun _ => Result.error errCryptoPath := by
  unfold getAppchainParams
  simp only [if_true, Result.bind_assoc]
  congr 1
  funext appPorts
  congr 1
  funext v
  obtain ⟨addr, ip⟩ := v
  by_cases hc : cryptoPath = "" <;> simp [hc]

/-- C11: for the Fabric chain type with a non-empty address and nine pairwise distinct
ports given, `getAppchainParams` fails with the address/ports inconsistency error when
the address contains none of the 3rd, 5th, 7th and 9th ports, whatever the ip and the
crypto path are; when the address contains one of them the result is not that error, and
it is a success returning the given ports and address when moreover the given ip is
contained in the address and the crypto path is non-empty. -/
theorem getAppchainParams_fabric_addr_ports
    (appchainIP appchainPorts appchainAddr cryptoPath p1 p2 p3 p4 p5 p6 p7 p8 p9 : String)
    (haddr : appchainAddr ≠ "")
    (hps : Split appchainPorts "," = [p1, p2, p3, p4, p5, p6, p7, p8, p9])
    (hdistinct : [p1, p2, p3, p4, p5, p6, p7, p8, p9].Nodup) :
    (Contains appchainAddr p3 = false → Contains appchainAddr p5 = false →
      Contains appchainAddr p7 = false → Contains appchainAddr p9 = false →
      getAppchainParams ChainTypeFabric appchainIP appchainPorts appchainAddr cryptoPath
        = Result.error errFabricAddrPorts) ∧
    (Contains appchainAddr p3 = true ∨ Contains appchainAddr p5 = true ∨
        Contains appchainAddr p7 = true ∨ Contains appchainAddr p9 = true →
      getAppchainParams ChainTypeFabric appchainIP appchainPorts appchainAddr cryptoPath
          ≠ Result.error errFabricAddrPorts ∧
        (appchainIP ≠ "" → Contains appchainAddr appchainIP = true → cryptoPath ≠ "" →
          getAppchainParams ChainTypeFabric appchainIP appchainPorts appchainAddr cryptoPath
            = Result.ok ([p1, p2, p3, p4, p5, p6, p7, p8, p9], appchainAddr, appchainIP))) := by
  have hports : appchainPorts ≠ "" := by
    rintro rfl
    rw [Split_empty_comma] at hps
    simp at hps
  have hdup : checkPorts [p1, p2, p3, p4, p5, p6, p7, p8, p9] = none :=
    (checkPorts_eq_none_iff _).mpr hdistinct
  have hrun : getAppchainParams ChainTypeFabric appchainIP appchainPorts appchainAddr cryptoPath
      = ((if (!Contains appchainAddr p3 && !Contains appchainAddr p5 &&
              !Contains appchainAddr p7 && !Contains appchainAddr p9) = true
          then Result.error errFabricAddrPorts else Result.ok ()).bind fun _ =>
          if appchainIP ≠ "" then
            if !Contains appchainAddr appchainIP then Result.error errAddrIP
            else Result.ok (appchainAddr, appchainIP)
          else
            (index (Split appchainAddr ":") 0).bind fun ip =>
              Result.ok (appchainAddr, ip)).bind fun v =>
        if cryptoPath = "" then Result.error errCryptoPath
        else Result.ok ([p1, p2, p3, p4, p5, p6, p7, p8, p9], v.1, v.2) := by
    simp only [getAppchainParams, if_true, hports, hps, hdup, haddr, if_false,
      List.length_cons, List.length_nil, ne_eq, not_true_eq_false, not_false_eq_true,
      Result.bind_ok, fabric_addr_condition]
  rw [hrun]
  constructor
  · intro h3 h5 h7 h9
    simp [h3, h5, h7, h9]
  · intro hsome
    have hcond : (!Contains appchainAddr p3 && !Contains appchainAddr p5 &&
        !Contains appchainAddr p7 && !Contains appchainAddr p9) = false := by
      rcases hsome with h | h | h | h <;> simp [h]
    obtain ⟨x, rest, hx⟩ := exists_cons_of_ne_nil _ (Split_ne_nil appchainAddr ":" (by decide))
    have h1 : errAddrIP ≠ errFabricAddrPorts := by decide
    have h2 : errCryptoPath ≠ errFabricAddrPorts := by decide
    constructor
    · by_cases hip : appchainIP = "" <;> by_cases hc : cryptoPath = "" <;>
        cases hcont : Contains appchainAddr appchainIP <;>
        simp [hcond, hip, hc, hcont, hx, index, h1, h2]
    · intro hip hcont hc
      simp [hcond, hip, hcont, hc]


/-- C11 witness: the address `127.0.0.1:9999` names none of the nine default ports. -/
theorem getAppchainParams_fabric_addr_ports_witness :
    getAppchainParams ChainTypeFabric "10.0.0.1"
        "7050,7051,7053,8051,8053,9051,9053,10051,10053" "127.0.0.1:9999" ""
      = Result.error errFabricAddrPorts :=
  (getAppchainParams_fabric_addr_ports "10.0.0.1"
    "7050,7051,7053,8051,8053,9051,9053,10051,10053" "127.0.0.1:9999" ""
    "7050" "7051" "7053" "8051" "8053" "9051" "9053" "10051" "10053"
    (by decide) (by decide) (by decide)).1 (by decide) (by decide) (by decide) (by decide)

/-- C12: for the Fabric chain type with an empty crypto path `getAppchainParams` always
returns an error; whenever the same ip, ports and address pass every check, that is,
the call succeeds with some crypto path, the error is the missing-crypto-path error; and
an error found by those checks is returned unchanged. -/
theorem getAppchainParams_fabric_needs_crypto (appchainIP appchainPorts appchainAddr : String) :
    (∃ msg, getAppchainParams ChainTypeFabric appchainIP appchainPorts appchainAddr ""
      = Result.error msg) ∧
    (∀ cryptoPath v,
      getAppchainParams ChainTypeFabric appchainIP appchainPorts appchainAddr cryptoPath
        = Result.ok v →
      getAppchainParams ChainTypeFabric appchainIP appchainPorts appchainAddr ""
        = Result.error errCryptoPath) ∧
    (∀ cryptoPath msg,
      getAppchainParams ChainTypeFabric appchainIP appchainPorts appchainAddr cryptoPath
        = Result.error msg →
      getAppchainParams ChainTypeFabric appchainIP appchainPorts appchainAddr ""
        = Result.error msg) := by
  refine ⟨?_, ?_, ?_⟩
  · have hbind := getAppchainParams_fabric_without_crypto appchainIP appchainPorts appchainAddr ""
    have hshape := getAppchainParams_shape ChainTypeFabric appchainIP appchainPorts appchainAddr ""
    generalize getAppchainParams ChainTypeFabric appchainIP appchainPorts appchainAddr "" = r
      at hbind hshape
    cases r with
    | ok v => exact ⟨errCryptoPath, hbind⟩
    | error msg => exact ⟨msg, rfl⟩
    | panicked msg => exact absurd hshape id
  · intro cryptoPath v hok
    rw [getAppchainParams_fabric_without_crypto appchainIP appchainPorts appchainAddr cryptoPath,
      hok]
    rfl
  · intro cryptoPath msg herr
    rw [getAppchainParams_fabric_without_crypto appchainIP appchainPorts appchainAddr cryptoPath,
      herr]
    rfl

/-- C12 witness: the default ports pass every check, so with an empty crypto path the
error is the missing-crypto-path error. -/
theorem getAppchainParams_fabric_needs_crypto_witness :
    getAppchainParams ChainTypeFabric "" "" "" "" = Result.error errCryptoPath :=
  (getAppchainParams_fabric_needs_crypto "" "" "").2.1 "crypto-config"
    (fabricDefaultPorts, "127.0.0.1:7053", "127.0.0.1") (by decide)

/-- C13: when a non-empty address and a non-empty ip are given and the address does not
contain the ip, `getAppchainParams` returns an error for the Fabric chain type, and for
the Ethereum chain type when the ip is not `0.0.0.0`; for the Ethereum chain type with
the ip `0.0.0.0` the result is the one of the same call with the ip left empty. -/
theorem getAppchainParams_addr_ip_mismatch
    (appchainIP appchainPorts appchainAddr cryptoPath : String)
    (haddr : appchainAddr ≠ "") (hip : appchainIP ≠ "")
    (hlack : Contains appchainAddr appchainIP = false) :
    (∃ msg, getAppchainParams ChainTypeFabric appchainIP appchainPorts appchainAddr cryptoPath
      = Result.error msg) ∧
    (appchainIP ≠ "0.0.0.0" →
      ∃ msg, getAppchainParams ChainTypeEther appchainIP appchainPorts appchainAddr cryptoPath
        = Result.error msg) ∧
    (appchainIP = "0.0.0.0" →
      getAppchainParams ChainTypeEther appchainIP appchainPorts appchainAddr cryptoPath
        = getAppchainParams ChainTypeEther "" appchainPorts appchainAddr cryptoPath) := by
  refine ⟨?_, ?_, ?_⟩
  · by_cases hports : appchainPorts = ""
    · exact ⟨errFabricOtherPorts, by simp [getAppchainParams, hports, haddr]⟩
    · by_cases hlen : (Split appchainPorts ",").length = 9
      · cases hdup : checkPorts (Split appchainPorts ",") with
        | some p =>
          exact ⟨errPortRepeated ++ p, by simp [getAppchainParams, hports, hlen, hdup]⟩
        | none =>
          obtain ⟨a, b, c, d, e, f, g, h, i, hps⟩ := exists_of_length_nine _ hlen
          rw [hps] at hdup
          cases hcond : (!Contains appchainAddr c && !Contains appchainAddr e &&
              !Contains appchainAddr g && !Contains appchainAddr i)
          · refine ⟨errAddrIP, ?_⟩
            simp only [getAppchainParams, if_true, hports, hps, hdup, haddr, if_false,
              List.length_cons, List.length_nil, ne_eq, not_true_eq_false, not_false_eq_true,
              Result.bind_ok, fabric_addr_condition, hcond]
            simp [hip, hlack]
          · refine ⟨errFabricAddrPorts, ?_⟩
            simp only [getAppchainParams, if_true, hports, hps, hdup, haddr, if_false,
              List.length_cons, List.length_nil, ne_eq, not_true_eq_false, not_false_eq_true,
              Result.bind_ok, fabric_addr_condition, hcond]
            simp
      · exact ⟨errFabricPortCount, by simp [getAppchainParams, hports, hlen]⟩
  · intro hany
    by_cases hports : appchainPorts = ""
    · exact ⟨errAddrIP, by
        simp [getAppchainParams, chainTypeEther_ne_fabric, haddr, hports, hip, hany, hlack]⟩
    · by_cases hsent : appchainPorts = "0000"
      · exact ⟨errAddrIP, by
          simp [getAppchainParams, chainTypeEther_ne_fabric, haddr, hsent, hip, hany, hlack]⟩
      · by_cases hlen : (Split appchainPorts ",").length = 1
        · obtain ⟨p0, hp0⟩ := exists_of_length_one _ hlen
          cases hc : Contains appchainAddr p0
          · exact ⟨errEtherAddrPorts appchainAddr appchainPorts, by
              simp [getAppchainParams, chainTypeEther_ne_fabric, haddr, hports, hsent, hp0,
                index, hc]⟩
          · exact ⟨errAddrIP, by
              simp [getAppchainParams, chainTypeEther_ne_fabric, haddr, hports, hsent, hp0,
                index, hc, hip, hany, hlack]⟩
        · exact ⟨errEtherPortCount, by
            simp [getAppchainParams, chainTypeEther_ne_fabric, haddr, hports, hsent, hlen]⟩
  · intro hany
    subst hany
    simp [getAppchainParams, chainTypeEther_ne_fabric, haddr]

/-- C13 witness: the ip `10.0.0.1` with the address `ws://10.0.0.5:8546` is rejected for
the Ethereum chain type. -/
theorem getAppchainParams_addr_ip_mismatch_witness :
    ∃ msg, getAppchainParams ChainTypeEther "10.0.0.1" "8546" "ws://10.0.0.5:8546" ""
      = Result.error msg :=
  (getAppchainParams_addr_ip_mismatch "10.0.0.1" "8546" "ws://10.0.0.5:8546" ""
    (by decide) (by decide) (by decide)).2.1 (by decide)


/-! ## `checkPorts`: the first repeated port -/

/-- A port returned by the loop of `checkPorts` stands at a position whose earlier entries
are pairwise distinct and absent from the map, and it is either a key of the map or one
of those earlier entries. -/
theorem checkPortsLoop_some_position (portM : PortMap) (n : Nat) (ports : List String)
    (p : String) (h : checkPortsLoop portM n ports = some p) :
    ∃ k, ports[k]? = some p ∧ (p ∈ portM.map Prod.fst ∨ p ∈ ports.take k) ∧
      (ports.take k).Nodup ∧ ∀ q ∈ ports.take k, q ∉ portM.map Prod.fst := by
  induction ports generalizing portM n with
  | nil => simp [checkPortsLoop] at h
  | cons x rest ih =>
    unfold checkPortsLoop at h
    cases hget : mapGet portM x with
    | some v =>
      rw [hget] at h
      simp only [Option.some.injEq] at h
      subst h
      have hmem : x ∈ portM.map Prod.fst := by
        by_contra hnot
        rw [← mapGet_eq_none_iff, hget] at hnot
        simp at hnot
      exact ⟨0, by simp, Or.inl hmem, by simp, by simp⟩
    | none =>
      rw [hget] at h
      have hx : x ∉ portM.map Prod.fst := (mapGet_eq_none_iff portM x).mp hget
      obtain ⟨k, hk, hp, hnd, hfresh⟩ := ih _ _ h
      refine ⟨k + 1, by simpa using hk, ?_, ?_, ?_⟩
      · rcases hp with hp | hp
        · rcases (mem_keys_mapSet portM x p n).mp hp with hp | hp
          · exact Or.inr (by simp [hp])
          · exact Or.inl hp
        · exact Or.inr (by simp [hp])
      · rw [List.take_succ_cons, List.nodup_cons]
        refine ⟨fun hmem => ?_, hnd⟩
        exact hfresh x hmem ((mem_keys_mapSet portM x x n).mpr (Or.inl rfl))
      · intro q hq
        rw [List.take_succ_cons, List.mem_cons] at hq
        rcases hq with rfl | hq
        · exact hx
        · exact fun hmem => hfresh q hq ((mem_keys_mapSet portM x q n).mpr (Or.inr hmem))

/-- C17: `checkPorts` returns nil exactly when the entries at any two different positions
differ; and a returned error names the entry at a position `i` that equals an entry at an
earlier position, while no position before `i` repeats an entry before it, so `i` is the
smallest such position. A list with a repeated entry always gets such an error. -/
theorem checkPorts_first_repeat (ports : List String) :
    (checkPorts ports = none ↔
      ∀ i j : Nat, i < j → j < ports.length → ports[i]? ≠ ports[j]?) ∧
    (∀ p, checkPorts ports = some p →
      ∃ i : Nat, ports[i]? = some p ∧ (∃ j : Nat, j < i ∧ ports[j]? = some p) ∧
        ∀ k : Nat, k < i → ∀ j : Nat, j < k → ports[j]? ≠ ports[k]?) ∧
    ((∃ i j : Nat, i < j ∧ j < ports.length ∧ ports[i]? = ports[j]?) →
      ∃ p, checkPorts ports = some p) := by
  have hnone : checkPorts ports = none ↔
      ∀ i j : Nat, i < j → j < ports.length → ports[i]? ≠ ports[j]? := by
    rw [checkPorts_eq_none_iff, List.nodup_iff_getElem?_ne_getElem?]
  refine ⟨hnone, ?_, ?_⟩
  · intro p hp
    obtain ⟨i, hi, hmem, hnd, _⟩ := checkPortsLoop_some_position [] 0 ports p hp
    have hilt : i < ports.length := (List.getElem?_eq_some.mp hi).1
    refine ⟨i, hi, ?_, ?_⟩
    · rcases hmem with hmem | hmem
      · simp at hmem
      · obtain ⟨j, hj, hjp⟩ := List.mem_take_iff_getElem.mp hmem
        have hj1 : j < i := lt_of_lt_of_le hj (min_le_left _ _)
        have hj2 : j < ports.length := lt_of_lt_of_le hj (min_le_right _ _)
        exact ⟨j, hj1, by rw [List.getElem?_eq_getElem hj2, hjp]⟩
    · intro k hk j hj
      have hlen : k < (ports.take i).length := by
        rw [List.length_take]
        exact lt_min hk (lt_trans hk hilt)
      have hne := List.nodup_iff_getElem?_ne_getElem?.mp hnd j k hj hlen
      rwa [List.getElem?_take_of_lt (lt_trans hj hk), List.getElem?_take_of_lt hk] at hne
  · rintro ⟨i, j, hij, hj, heq⟩
    cases hc : checkPorts ports with
    | some p => exact ⟨p, rfl⟩
    | none => exact absurd heq (hnone.mp hc i j hij hj)

/-- C17 witness: in `a, b, c, b, a` the first repeat is the `b` at position 3. -/
theorem checkPorts_first_repeat_witness :
    ∃ i : Nat, ["a", "b", "c", "b", "a"][i]? = some "b" ∧
      (∃ j : Nat, j < i ∧ ["a", "b", "c", "b", "a"][j]? = some "b") ∧
      ∀ k : Nat, k < i → ∀ j : Nat, j < k →
        ["a", "b", "c", "b", "a"][j]? ≠ ["a", "b", "c", "b", "a"][k]? :=
  (checkPorts_first_repeat ["a", "b", "c", "b", "a"]).2.1 "b" (by decide)


/-! ## Artifact download -/

/-- C14: when the directory `repoRoot/bin/pier_<os>_<version>` exists (as it does on a
filesystem whenever a file inside it exists) and the file `pier` in it exists,
`downloadPierBinary` returns nil, leaves the filesystem as it was and calls nothing but
the two existence tests: no `MkdirAll`, no download, no shell; `downloadPierPlugin` does
the same when the plugin file for the chain exists in that directory. -/
theorem download_skips_present_artifact {σ : Type} (sys : Env σ)
    (repoPath chain version system : String) (w : World σ)
    (hdir : sys.exist w.fs (sys.join [repoPath, "bin", "pier_" ++ system ++ "_" ++ version])
      = true) :
    (sys.exist w.fs
        (sys.join [sys.join [repoPath, "bin", "pier_" ++ system ++ "_" ++ version], "pier"])
        = true →
      downloadPierBinary sys repoPath version system w =
        (World.mk w.fs (w.trace ++
          [Effect.exist (sys.join [repoPath, "bin", "pier_" ++ system ++ "_" ++ version]),
            Effect.exist (sys.join
              [sys.join [repoPath, "bin", "pier_" ++ system ++ "_" ++ version], "pier"])]),
          Result.ok ())) ∧
    (sys.exist w.fs
        (sys.join [sys.join [repoPath, "bin", "pier_" ++ system ++ "_" ++ version],
          sys.pierPlugin chain]) = true →
      downloadPierPlugin sys repoPath chain version system w =
        (World.mk w.fs (w.trace ++
          [Effect.exist (sys.join [repoPath, "bin", "pier_" ++ system ++ "_" ++ version]),
            Effect.exist (sys.join
              [sys.join [repoPath, "bin", "pier_" ++ system ++ "_" ++ version],
                sys.pierPlugin chain])]),
          Result.ok ())) := by
  constructor
  · intro hfile
    simp [downloadPierBinary, Cmd.andThen, Cmd.reading, Cmd.ret, hdir, hfile]
  · intro hfile
    simp [downloadPierPlugin, Cmd.andThen, Cmd.reading, Cmd.ret, hdir, hfile]

/-- C14 witness: the Linux binary of `v1.6.1` is present under `/repo`. -/
theorem download_skips_present_artifact_witness :
    downloadPierBinary (listEnv []) "/repo" "v1.6.1" "linux"
        (World.mk ["/repo/bin/pier_linux_v1.6.1", "/repo/bin/pier_linux_v1.6.1/pier"] []) =
      (World.mk ["/repo/bin/pier_linux_v1.6.1", "/repo/bin/pier_linux_v1.6.1/pier"]
        ([] ++ [Effect.exist "/repo/bin/pier_linux_v1.6.1",
          Effect.exist "/repo/bin/pier_linux_v1.6.1/pier"]),
        Result.ok ()) :=
  (download_skips_present_artifact (listEnv []) "/repo" "ethereum" "v1.6.1" "linux"
    (World.mk ["/repo/bin/pier_linux_v1.6.1", "/repo/bin/pier_linux_v1.6.1/pier"] [])
    (by decide)).1 (by decide)

/-! ## The deploy-rule command -/

/-- C15 (as amended): when a deploy-rule invocation with no rule path passes its checks
(manifest loaded, version supported, the instance directory exists in binary mode, a
container ID is given in docker mode), the rule path handed to `pier.DeployRule` is
`filepath.Join(repoRoot, "pier/.pier_<chainType>/<chainType>/validating.wasm")`, built
from the repo root whether or not the `pierRepo` flag is given; the flag only sets the
`pierRepo` argument. -/
theorem pierRuleDeploy_default_rule_path {σ : Type} (sys : Env σ) (ctx : Flags) (w : World σ)
    (repoRoot data pierRepo : String) (release : Release)
    (hroot : sys.pathRootWithDefault ctx.repo = Result.ok repoRoot)
    (hread : sys.readFile w.fs (sys.join [repoRoot, "release.json"]) = Result.ok data)
    (hjson : sys.unmarshalRelease data = Result.ok (some release))
    (hver : AdjustVersion ctx.version release.Pier = true)
    (hrepo : pierRepo =
      if ctx.pierRepo = "" then sys.join [repoRoot, "pier/.pier_" ++ ctx.appchain]
      else ctx.pierRepo)
    (hbinary : ctx.upType = TypeBinary → sys.exist w.fs pierRepo = true)
    (hdocker : ctx.upType = TypeDocker → ctx.cid ≠ "") :
    pierRuleDeploy sys ctx "" w =
      (World.mk
        (sys.deployRule w.fs repoRoot ctx.appchain pierRepo
          (sys.join [repoRoot,
            "pier/.pier_" ++ ctx.appchain ++ "/" ++ ctx.appchain ++ "/validating.wasm"])
          ctx.upType ctx.method ctx.version ctx.cid).1
        (w.trace ++ [Effect.pathRoot ctx.repo,
            Effect.readFile (sys.join [repoRoot, "release.json"])] ++
          (if ctx.upType = TypeBinary then [Effect.exist pierRepo] else []) ++
          [Effect.deployRule repoRoot ctx.appchain pierRepo
            (sys.join [repoRoot,
              "pier/.pier_" ++ ctx.appchain ++ "/" ++ ctx.appchain ++ "/validating.wasm"])
            ctx.upType ctx.method ctx.version ctx.cid]),
        (sys.deployRule w.fs repoRoot ctx.appchain pierRepo
          (sys.join [repoRoot,
            "pier/.pier_" ++ ctx.appchain ++ "/" ++ ctx.appchain ++ "/validating.wasm"])
          ctx.upType ctx.method ctx.version ctx.cid).2) := by
  subst hrepo
  by_cases hmode : ctx.upType = TypeBinary
  · have hne : TypeBinary ≠ TypeDocker := by decide
    simp [pierRuleDeploy, Cmd.andThen, Cmd.reading, Cmd.writing, Cmd.ret, derefPier, hroot,
      hread, hjson, hver, hmode, hbinary hmode, hne]
  · by_cases hd : ctx.upType = TypeDocker
    · have hne : TypeDocker ≠ TypeBinary := by decide
      simp [pierRuleDeploy, Cmd.andThen, Cmd.reading, Cmd.writing, Cmd.ret, derefPier, hroot,
        hread, hjson, hver, hd, hdocker hd, hne]
    · simp [pierRuleDeploy, Cmd.andThen, Cmd.reading, Cmd.writing, Cmd.ret, derefPier, hroot,
        hread, hjson, hver, hmode, hd]

/-- C15 witness: binary mode under `/repo` with the default instance directory present. -/
theorem pierRuleDeploy_default_rule_path_witness :
    (pierRuleDeploy (listEnv ["v1.6.1"])
        (Flags.mk "ethereum" "binary" "appchain" "" "v1.6.1" "" "/repo") ""
        (World.mk ["/repo/release.json", "/repo/pier/.pier_ethereum"] [])).1.trace =
      [Effect.pathRoot "/repo", Effect.readFile "/repo/release.json",
        Effect.exist "/repo/pier/.pier_ethereum",
        Effect.deployRule "/repo" "ethereum" "/repo/pier/.pier_ethereum"
          "/repo/pier/.pier_ethereum/ethereum/validating.wasm" "binary" "appchain" "v1.6.1" ""] :=
  congrArg (fun r => r.1.trace)
    (pierRuleDeploy_default_rule_path (listEnv ["v1.6.1"])
      (Flags.mk "ethereum" "binary" "appchain" "" "v1.6.1" "" "/repo")
      (World.mk ["/repo/release.json", "/repo/pier/.pier_ethereum"] [])
      "/repo" "manifest" "/repo/pier/.pier_ethereum" (Release.mk ["v1.6.1"])
      (by decide) (by decide) (by decide) (by decide) (by decide) (by decide) (by decide))

/-- C15 counterexample: with the instance directory overridden to `/custom` and no rule
path, the rule path handed to `pier.DeployRule` is under `/repo/pier/.pier_ethereum`,
not `/custom/ethereum/validating.wasm`. -/
theorem pierRuleDeploy_rule_path_ignores_override :
    (pierRuleDeploy (listEnv ["v1.6.1"])
        (Flags.mk "ethereum" "binary" "appchain" "/custom" "v1.6.1" "" "/repo") ""
        (World.mk ["/repo/release.json", "/custom"] [])).1.trace =
      [Effect.pathRoot "/repo", Effect.readFile "/repo/release.json", Effect.exist "/custom",
        Effect.deployRule "/repo" "ethereum" "/custom"
          "/repo/pier/.pier_ethereum/ethereum/validating.wasm" "binary" "appchain" "v1.6.1" ""] ∧
    ("/repo/pier/.pier_ethereum/ethereum/validating.wasm" : String)
      ≠ "/custom/ethereum/validating.wasm" := by
  decide


/-! ## Version resolution in the start command -/

/-- C16 (as amended): once the manifest is loaded, `pierStart` fails with the
unsupported-version error, calling nothing further, when the requested version is not an
exact member of the supported versions. When it is a member and also one of the keys of
`pierConfigMap`, the looked-up config version is a non-empty value of that table, and
with no `configPath` flag (and no directory to create) `pier.StartPier` is called with
the config path `filepath.Join(repoRoot, "<PierConfigRepo>/<config version>/<PierModifyConfig>")`. -/
theorem pierStart_version_resolution {σ : Type} (sys : Env σ) (ctx : Flags)
    (configPath : String) (w : World σ) (repoRoot data pierRepo : String) (release : Release)
    (hroot : sys.pathRootWithDefault ctx.repo = Result.ok repoRoot)
    (hread : sys.readFile w.fs (sys.join [repoRoot, "release.json"]) = Result.ok data)
    (hjson : sys.unmarshalRelease data = Result.ok (some release))
    (hrepo : pierRepo =
      if ctx.pierRepo = "" then sys.join [repoRoot, "pier/.pier_" ++ ctx.appchain]
      else ctx.pierRepo) :
    (ctx.version ∉ release.Pier →
      pierStart sys ctx configPath w =
        (World.mk w.fs (w.trace ++ [Effect.pathRoot ctx.repo,
            Effect.readFile (sys.join [repoRoot, "release.json"])]),
          Result.error errPierVersion)) ∧
    (ctx.version ∈ release.Pier → ctx.version ∈ pierConfigMap.map Prod.fst →
      pierConfigMapAt ctx.version ≠ "" ∧
      (ctx.version, pierConfigMapAt ctx.version) ∈ pierConfigMap ∧
      ((ctx.upType = TypeBinary → sys.exist w.fs pierRepo = true) →
        pierStart sys ctx "" w =
          (World.mk
            (sys.startPier w.fs repoRoot ctx.appchain pierRepo ctx.upType
              (sys.join [repoRoot, sys.pierConfigRepo ++ "/" ++ pierConfigMapAt ctx.version ++
                "/" ++ sys.pierModifyConfig]) ctx.version).1
            (w.trace ++ [Effect.pathRoot ctx.repo,
                Effect.readFile (sys.join [repoRoot, "release.json"])] ++
              (if ctx.upType = TypeBinary then [Effect.exist pierRepo] else []) ++
              [Effect.startPier repoRoot ctx.appchain pierRepo ctx.upType
                (sys.join [repoRoot, sys.pierConfigRepo ++ "/" ++ pierConfigMapAt ctx.version ++
                  "/" ++ sys.pierModifyConfig]) ctx.version]),
            (sys.startPier w.fs repoRoot ctx.appchain pierRepo ctx.upType
              (sys.join [repoRoot, sys.pierConfigRepo ++ "/" ++ pierConfigMapAt ctx.version ++
                "/" ++ sys.pierModifyConfig]) ctx.version).2))) := by
  subst hrepo
  constructor
  · intro hnot
    have hver : AdjustVersion ctx.version release.Pier = false := by
      simpa [AdjustVersion] using hnot
    simp [pierStart, Cmd.andThen, Cmd.reading, Cmd.ret, derefPier, hroot, hread, hjson, hver]
  · intro hmem hkey
    have hver : AdjustVersion ctx.version release.Pier = true := by
      simpa [AdjustVersion] using hmem
    refine ⟨?_, ?_, ?_⟩
    · simp only [pierConfigMap, List.map_cons, List.map_nil, List.mem_cons, List.mem_nil_iff,
        or_false] at hkey
      rcases hkey with h | h | h | h <;> rw [h] <;> decide
    · simp only [pierConfigMap, List.map_cons, List.map_nil, List.mem_cons, List.mem_nil_iff,
        or_false] at hkey
      rcases hkey with h | h | h | h <;> rw [h] <;> decide
    · intro hbinary
      by_cases hmode : ctx.upType = TypeBinary
      · simp [pierStart, Cmd.andThen, Cmd.reading, Cmd.writing, Cmd.ret, derefPier, hroot,
          hread, hjson, hver, hmode, hbinary hmode]
      · simp [pierStart, Cmd.andThen, Cmd.reading, Cmd.writing, Cmd.ret, derefPier, hroot,
          hread, hjson, hver, hmode]

/-- C16 witness: the supported version `v1.7.0` resolves to the config version `v1.6.1`. -/
theorem pierStart_version_resolution_witness :
    pierConfigMapAt "v1.7.0" ≠ "" ∧ ("v1.7.0", pierConfigMapAt "v1.7.0") ∈ pierConfigMap :=
  have h := (pierStart_version_resolution (listEnv ["v1.6.1", "v1.7.0"])
    (Flags.mk "ethereum" "docker" "appchain" "" "v1.7.0" "" "/repo") ""
    (World.mk ["/repo/release.json"] []) "/repo" "manifest" "/repo/pier/.pier_ethereum"
    (Release.mk ["v1.6.1", "v1.7.0"])
    (by decide) (by decide) (by decide) (by decide)).2 (by decide) (by decide)
  ⟨h.1, h.2.1⟩

/-- C16 counterexample: the manifest lists `v2.0.0`, which is not a key of
`pierConfigMap`: the version check passes, the looked-up config version is empty, and
`pier.StartPier` is called with a config path that has no version directory, the empty
element being dropped by `filepath.Join`. -/
theorem pierStart_supported_version_without_config :
    AdjustVersion "v2.0.0" ["v2.0.0"] = true ∧ pierConfigMapAt "v2.0.0" = "" ∧
    (pierStart (listEnv ["v2.0.0"])
        (Flags.mk "ethereum" "docker" "appchain" "" "v2.0.0" "" "/repo") ""
        (World.mk ["/repo/release.json"] [])).1.trace =
      [Effect.pathRoot "/repo", Effect.readFile "/repo/release.json",
        Effect.startPier "/repo" "ethereum" "/repo/pier/.pier_ethereum" "docker"
          "/repo/pier_config/pier_modify_config.toml" "v2.0.0"] := by
  decide

end Goduck
